import Mathlib

/-!
Verification of the Coverage Layer Aggregation Engine
(`Modules/CoverageChart/coverageChartEngine.js`).

This file gives a shallow embedding, in Lean, of the engine's pure core:
the record normalizer's per-year slicing, the availability classifier, the
quota-share grouper, the temporal segmentation / merge pass of
`buildDatasetsForView` (year-axis path), the filter pipeline of
`applyFiltersToCache`, and the deterministic color assigner — and proves
or refutes the documented properties of these functions.

Modelling conventions, used throughout:
* JS numbers are embedded as exact rationals (`ℚ`) and millisecond
  timestamps as integers (`ℤ`); no floating-point rounding is modelled.
  `String(number)` is embedded as Lean's `toString`, which is injective on
  `ℚ`/`ℤ` and agrees with JS on integers.
* JS strings are Lean `String`s; `trim` / `toLowerCase` / substring tests
  are re-implemented over `List Char` (so that they reduce in the kernel)
  with ASCII semantics, and `localeCompare`-based sorts are modelled with
  Lean's total order on `String`.  JS `Array.prototype.sort` is stable, so
  sorts are embedded as a stable insertion sort.
* JS `Map` / `Set` iterate in insertion order; they are embedded as
  insertion-ordered association lists / lists without duplicates.
* Stateful code (the module-level `_cache` and the color-slot table) is
  embedded by explicit state passing.
-/

/- ================================
   Generic string helpers (ASCII model of the JS string primitives)
================================ -/

/-- ASCII whitespace test, modelling the characters JS `trim` and `\s` treat
as whitespace on the data this program sees. -/
def isWsChar (c : Char) : Bool :=
  c = ' ' || c = '\t' || c = '\n' || c = '\r' || c = '\x0b' || c = '\x0c'

/-- Model of `String.prototype.trim`. -/
def strTrim (s : String) : String :=
  ⟨((s.data.dropWhile isWsChar).reverse.dropWhile isWsChar).reverse⟩

/-- Model of `String.prototype.toLowerCase` (ASCII). -/
def strLower (s : String) : String := ⟨s.data.map Char.toLower⟩

/-- `pat` occurs at the head of `text`. -/
def charsHasPre : List Char → List Char → Bool
  | [], _ => true
  | _ :: _, [] => false
  | p :: ps, c :: cs => p == c && charsHasPre ps cs

/-- `pat` occurs somewhere in `text`. -/
def charsHasSub (pat : List Char) : List Char → Bool
  | [] => pat.isEmpty
  | c :: cs => charsHasPre pat (c :: cs) || charsHasSub pat cs

/-- Model of `String.prototype.includes` (and of a fixed-literal regex test). -/
def strHas (s pat : String) : Bool := charsHasSub pat.data s.data

/-- Case-insensitive `includes`, as used by the `/.../i` regex tests. -/
def strHasCI (s pat : String) : Bool := strHas (strLower s) pat

/-- Model of `normKey`: lower-case and strip every non-alphanumeric
character (the JS source uses `replace(/[^a-z0-9]/g, "")` after
`toLowerCase`). -/
def normKey (k : String) : String :=
  ⟨(strLower k).data.filter (fun c => c.isLower || c.isDigit)⟩

/- ================================
   Stable sorting (model of JS `Array.prototype.sort`, which is stable)
================================ -/

/-- Insert `a` after every element `b` with `le b a`; combined with a
left fold this yields a stable sort for a total preorder `le`. -/
def stInsert {α : Type} (le : α → α → Bool) (a : α) : List α → List α
  | [] => [a]
  | b :: bs => if le b a then b :: stInsert le a bs else a :: b :: bs

/-- Stable sort by the boolean relation `le` ("may come before"). -/
def stSort {α : Type} (le : α → α → Bool) (l : List α) : List α :=
  l.foldl (fun acc a => stInsert le a acc) []

theorem stInsert_perm {α : Type} (le : α → α → Bool) (a : α) (l : List α) :
    List.Perm (stInsert le a l) (a :: l) := by
  induction l with
  | nil => simp [stInsert]
  | cons b bs ih =>
    simp only [stInsert]
    split
    · exact ((ih.cons b).trans (List.Perm.swap a b bs))
    · exact List.Perm.refl _

theorem stSort_perm {α : Type} (le : α → α → Bool) (l : List α) :
    List.Perm (stSort le l) l := by
  have h : ∀ (l acc : List α),
      List.Perm (l.foldl (fun acc a => stInsert le a acc) acc) (l ++ acc) := by
    intro l
    induction l with
    | nil => intro acc; simp
    | cons a as ih =>
      intro acc
      simp only [List.foldl_cons]
      refine (ih (stInsert le a acc)).trans ?_
      refine (List.Perm.append_left as (stInsert_perm le a acc)).trans ?_
      exact List.perm_middle
  simpa using h l []

theorem stSort_mem {α : Type} (le : α → α → Bool) (l : List α) (a : α) :
    a ∈ stSort le l ↔ a ∈ l := (stSort_perm le l).mem_iff

theorem stInsert_sorted (le : ℚ → ℚ → Bool) (hle : ∀ a b, le a b = decide (a ≤ b))
    (a : ℚ) (l : List ℚ) (hl : l.Sorted (· ≤ ·)) :
    (stInsert le a l).Sorted (· ≤ ·) := by
  induction l with
  | nil => simp [stInsert]
  | cons b bs ih =>
    rcases List.sorted_cons.mp hl with ⟨hb, hbs⟩
    by_cases hba : b ≤ a
    · rw [stInsert, hle, if_pos (by simpa using hba)]
      refine List.sorted_cons.mpr ⟨?_, ih hbs⟩
      intro c hc
      rcases List.mem_cons.mp ((stInsert_perm le a bs).mem_iff.mp hc) with rfl | h
      · exact hba
      · exact hb c h
    · rw [stInsert, hle, if_neg (by simpa using hba)]
      refine List.sorted_cons.mpr ⟨?_, hl⟩
      intro c hc
      rcases List.mem_cons.mp hc with rfl | h
      · linarith
      · exact le_trans (by linarith) (hb c h)

theorem stSort_sorted (le : ℚ → ℚ → Bool) (hle : ∀ a b, le a b = decide (a ≤ b))
    (l : List ℚ) : (stSort le l).Sorted (· ≤ ·) := by
  have h : ∀ (l acc : List ℚ), acc.Sorted (· ≤ ·) →
      (l.foldl (fun acc a => stInsert le a acc) acc).Sorted (· ≤ ·) := by
    intro l
    induction l with
    | nil => intro acc h; simpa using h
    | cons a as ih => intro acc h; exact ih _ (stInsert_sorted le hle a acc h)
  exact h l [] (by simp)


/-- Total order on strings by code points (the model of JS string
comparison / `localeCompare`; the library's `String ≤` does not reduce in
the kernel). -/
def charsLe : List Char → List Char → Bool
  | [], _ => true
  | _ :: _, [] => false
  | a :: as, b :: bs => if a = b then charsLe as bs else decide (a < b)

def strLe (a b : String) : Bool := charsLe a.data b.data

/- ================================
   Kernel-computable rational arithmetic
   (the library's `Rat.add`/`mul`/`inv`/... are `@[irreducible]`, so the
   embedding uses these equivalent definitions, each proven equal to the
   corresponding field operation, so that concrete runs reduce by `decide`)
================================ -/

def qAdd (a b : ℚ) : ℚ := mkRat (a.num * b.den + b.num * a.den) (a.den * b.den)

theorem qAdd_eq (a b : ℚ) : qAdd a b = a + b := (Rat.add_def' a b).symm

def qSub (a b : ℚ) : ℚ := mkRat (a.num * b.den - b.num * a.den) (a.den * b.den)

theorem qSub_eq (a b : ℚ) : qSub a b = a - b := (Rat.sub_def' a b).symm

def qMul (a b : ℚ) : ℚ := mkRat (a.num * b.num) (a.den * b.den)

theorem qMul_eq (a b : ℚ) : qMul a b = a * b := by
  rw [Rat.mul_def, Rat.normalize_eq_mkRat]; rfl

def qInv (a : ℚ) : ℚ := Rat.divInt (a.den : ℤ) a.num

theorem qInv_eq (a : ℚ) : qInv a = a⁻¹ := (Rat.inv_def a).symm

def qDiv (a b : ℚ) : ℚ := qMul a (qInv b)

theorem qDiv_eq (a b : ℚ) : qDiv a b = a / b := by
  rw [qDiv, qMul_eq, qInv_eq, div_eq_mul_inv]

def qAbs (q : ℚ) : ℚ := if q < 0 then -q else q

theorem qAbs_eq (q : ℚ) : qAbs q = |q| := by
  rw [qAbs, abs]
  rcases lt_or_le q 0 with h | h
  · rw [if_pos h]; exact (max_eq_right (by linarith)).symm
  · rw [if_neg (not_lt.mpr h)]; exact (max_eq_left (by linarith)).symm

/-- Left-fold sum (matching the JS `segLimit += limit` accumulation). -/
def qSum (l : List ℚ) : ℚ := l.foldl qAdd 0

theorem qSum_eq (l : List ℚ) : qSum l = l.sum := by
  have h : ∀ (l : List ℚ) (init : ℚ), l.foldl qAdd init = init + l.sum := by
    intro l
    induction l with
    | nil => intro init; simp
    | cons a as ih => intro init; rw [List.foldl_cons, qAdd_eq, ih, List.sum_cons]; ring
  rw [qSum, h, zero_add]

/-- `Math.floor` on an exact rational. -/
def ratFloor (q : ℚ) : ℤ := q.num.fdiv q.den

theorem ratFloor_eq (q : ℚ) : ratFloor q = ⌊q⌋ := by
  rw [Rat.floor_def, ratFloor, Int.fdiv_eq_ediv _ (by positivity)]

/- ================================
   Deterministic color assigner (`colorFromString` in the engine)
================================ -/

/-- FNV-1a hash over the string's code points, with 32-bit wrap-around
(`Math.imul(h, 16777619) >>> 0` is multiplication mod 2^32). -/
def hashString (s : String) : Nat :=
  s.data.foldl (fun h c => (Nat.xor h c.toNat * 16777619) % 4294967296) 2166136261

/-- `_distinctPaletteDark` from the source (30 curated colors). -/
def distinctPaletteDark : List String :=
  ["#4E79A7", "#F28E2B", "#E15759", "#76B7B2", "#59A14F", "#EDC948",
   "#B07AA1", "#FF9DA7", "#9C755F", "#BAB0AC", "#2F4B7C", "#A05195",
   "#D45087", "#FF7C43", "#665191", "#003F5C", "#EF5675", "#FFA600",
   "#1F77B4", "#17BECF", "#9467BD", "#8C564B", "#BCBD22", "#E377C2",
   "#2CA02C", "#D62728", "#8DD3C7", "#FB8072", "#80B1D3", "#FDB462"]

/-- `_distinctPaletteLight` from the source; same slot indexing as the dark
palette so slot assignment is theme-independent. -/
def distinctPaletteLight : List String :=
  ["#2F5D8A", "#A95E16", "#B04747", "#2E7F7A", "#3D7B35", "#8D7420",
   "#7A5A86", "#B86473", "#6F533F", "#5F6368", "#233A60", "#6D3F73",
   "#A13E6A", "#B85A2C", "#4F3E7A", "#1D3852", "#A9466A", "#B06F00",
   "#215F97", "#187A94", "#6E55A2", "#6D4D3F", "#7A7B1E", "#9A4D94",
   "#2C7A2C", "#A83E3E", "#3A8A84", "#B05A56", "#4E6EA2", "#A87739"]

/-- The module-level `_colorSpecByKey` map: label key → reserved slot,
in insertion order. -/
abbrev ColorState : Type := List (String × Nat)

/-- Normalization of the label (`String(str ?? "").trim().toLowerCase() ||
"(blank)"`). -/
def colorKeyOf (s : String) : String :=
  let t := strLower (strTrim s)
  if t = "" then "(blank)" else t

/-- The probe loop: candidates `(seed + i*7) % 30` for `i = 0..29`; the
first unused slot wins, otherwise `chosenSlot` keeps its initial value
`seedSlot`. -/
def probeSlot (used : List Nat) (seed : Nat) : Nat :=
  match (List.range distinctPaletteDark.length).find?
      (fun i => ! used.contains ((seed + i * 7) % distinctPaletteDark.length)) with
  | some i => (seed + i * 7) % distinctPaletteDark.length
  | none => seed

/-- The `if (!_colorSpecByKey.has(s)) { ... set(s, {slot}) }` prologue of
`colorFromString`: reserve a slot for a new key, never touch existing keys. -/
def assignColorSlot (st : ColorState) (key : String) : ColorState :=
  match st.lookup key with
  | some _ => st
  | none =>
      let used := st.map Prod.snd
      let seed := hashString key % distinctPaletteDark.length
      st ++ [(key, probeSlot used seed)]

/-- `colorFromString(str)`, with the DOM theme read (`getThemeName()`) made
an explicit input and the module-level map passed as state. -/
def colorFromString (s : String) (theme : String) (st : ColorState) :
    String × ColorState :=
  let key := colorKeyOf s
  let st' := assignColorSlot st key
  let slot := min ((st'.lookup key).getD 0) (distinctPaletteDark.length - 1)
  ((if theme = "light" then distinctPaletteLight else distinctPaletteDark).getD slot "",
    st')

theorem lookup_append_of_some {α β : Type} [BEq α] (k : α) (v : β)
    (l1 l2 : List (α × β)) (h : l1.lookup k = some v) :
    (l1 ++ l2).lookup k = some v := by
  induction l1 with
  | nil => simp at h
  | cons p rest ih =>
      rw [List.lookup_cons] at h
      rw [List.cons_append, List.lookup_cons]
      cases hk : (k == p.1) with
      | true => rw [hk] at h; exact h
      | false => rw [hk] at h; exact ih h

theorem lookup_assignColorSlot_preserve (st : ColorState) (k k' : String) (v : Nat)
    (h : st.lookup k = some v) : (assignColorSlot st k').lookup k = some v := by
  unfold assignColorSlot
  cases hlk : List.lookup k' st with
  | some w => exact h
  | none => exact lookup_append_of_some k v st _ h

theorem lookup_append_of_none {α β : Type} [BEq α] (k : α)
    (l1 l2 : List (α × β)) (h : l1.lookup k = none) :
    (l1 ++ l2).lookup k = l2.lookup k := by
  induction l1 with
  | nil => simp
  | cons p rest ih =>
      rw [List.lookup_cons] at h
      rw [List.cons_append, List.lookup_cons]
      cases hk : (k == p.1) with
      | true => rw [hk] at h; cases h
      | false => rw [hk] at h; exact ih h

theorem lookup_assignColorSlot_self (st : ColorState) (k : String) :
    ∃ v, (assignColorSlot st k).lookup k = some v := by
  unfold assignColorSlot
  cases hlk : List.lookup k st with
  | some w => exact ⟨w, hlk⟩
  | none =>
      refine ⟨probeSlot (st.map Prod.snd) (hashString k % distinctPaletteDark.length), ?_⟩
      rw [lookup_append_of_none k st _ hlk]
      simp [List.lookup_cons]

theorem assignColorSlot_of_lookup_some (st : ColorState) (k : String) (v : Nat)
    (h : st.lookup k = some v) : assignColorSlot st k = st := by
  unfold assignColorSlot
  rw [h]

/-- C9. Color stability: once `colorFromString` has been called on a label,
any sequence of further calls (any other labels, any themes, in any order)
leaves that label's reserved palette slot untouched, so a repeat call for
the label under the same theme returns the same color as the first call. -/
theorem colorFromString_stable
    (s theme : String) (st : ColorState) (others : List (String × String)) :
    (colorFromString s theme
        (others.foldl (fun acc p => (colorFromString p.1 p.2 acc).2)
          ((colorFromString s theme st).2))).1
      = (colorFromString s theme st).1 := by
  obtain ⟨v, hv⟩ := lookup_assignColorSlot_self st (colorKeyOf s)
  have hsnd : (colorFromString s theme st).2 = assignColorSlot st (colorKeyOf s) := rfl
  have hfold : ∀ (os : List (String × String)) (acc : ColorState),
      acc.lookup (colorKeyOf s) = some v →
      (os.foldl (fun acc p => (colorFromString p.1 p.2 acc).2) acc).lookup (colorKeyOf s)
        = some v := by
    intro os
    induction os with
    | nil => intro acc h; simpa using h
    | cons p ps ih =>
        intro acc h
        exact ih _ (lookup_assignColorSlot_preserve acc (colorKeyOf s) (colorKeyOf p.1) v h)
  have h2 := hfold others _ (hsnd ▸ hv)
  show ((if theme = "light" then distinctPaletteLight else distinctPaletteDark).getD
      (min (((assignColorSlot _ (colorKeyOf s)).lookup (colorKeyOf s)).getD 0)
        (distinctPaletteDark.length - 1)) "")
      = ((if theme = "light" then distinctPaletteLight else distinctPaletteDark).getD
      (min (((assignColorSlot st (colorKeyOf s)).lookup (colorKeyOf s)).getD 0)
        (distinctPaletteDark.length - 1)) "")
  rw [assignColorSlot_of_lookup_some _ _ v h2, h2, hv]

/- ================================
   Coverage slices and the quota-share grouper
================================ -/

/-- JS falsy-`||` on strings: `a || b` is `b` when `a` is the empty string. -/
def jsOrS (a b : String) : String := if a = "" then b else a

/-- JS falsy-`||` on a possibly-undefined number against a number
(`Number(a || b || 0)`): `0` and `undefined` are falsy. -/
def jsOrMs : Option ℤ → ℤ → ℤ
  | some v, b => if v = 0 then b else v
  | none, b => b

/-- A `CoverageSlice` produced by `buildSlices` in year-axis mode, with the
fields read by the grouper, the filter pipeline and
`buildDatasetsForView`.  (`yearOverlapRatio`/`xMidValue` are computed by
the normalizer but never read downstream, so they are omitted.) -/
structure Slice where
  PolicyID : String
  policy_no : String
  carrier : String
  carrierGroup : String
  insuranceProgram : String
  insuranceProgramId : String
  namedInsuredId : String
  policyLimitType : String
  policyLimitTypeId : String
  availability : String
  attach : ℚ
  sliceLimit : ℚ
  xStartValue : ℚ
  xEndValue : ℚ
  policyStartMs : ℤ
  policyEndMs : ℤ
  policyStartYear : ℤ
  policyEndYear : ℤ
  yearOverlapStartMs : Option ℤ
  yearOverlapEndMs : Option ℤ
  sirPerOcc : ℚ
  sirAggregate : ℚ
  year : Option ℤ
  x : String
  deriving Repr, DecidableEq

/-- `quotaGroupKey(s)`: the composite quota-share grouping key
(program, year, attachment, limit-type id, named-insured id, covered span). -/
def quotaGroupKeyOf (s : Slice) : String :=
  let program := strTrim (jsOrS s.insuranceProgramId s.insuranceProgram)
  let year := match s.year with
    | some y => toString y
    | none => strTrim s.x
  let attach := strTrim (toString s.attach)
  let limitType := strTrim s.policyLimitTypeId
  let namedInsured := strTrim s.namedInsuredId
  let spanStart := match s.yearOverlapStartMs with
    | some v => v
    | none => s.policyStartMs
  let spanEnd := match s.yearOverlapEndMs with
    | some v => v
    | none => s.policyEndMs
  program ++ "||" ++ year ++ "||" ++ attach ++ "||" ++ limitType ++ "||" ++
    namedInsured ++ "||" ++ toString spanStart ++ "||" ++ toString spanEnd

/-- `buildQuotaKeySet(slices)`: the set of quota keys shared by at least two
distinct policy ids, as a duplicate-free list. -/
def buildQuotaKeySet (slices : List Slice) : List String :=
  ((slices.map quotaGroupKeyOf).dedup).filter (fun k =>
    1 < (((slices.filter (fun s => quotaGroupKeyOf s == k)).map
            (fun s => s.PolicyID)).dedup).length)

/-- The Grouper's contract: a key is quota-share exactly when two slices with
that key carry different policy ids. -/
theorem mem_buildQuotaKeySet_iff (slices : List Slice) (k : String) :
    k ∈ buildQuotaKeySet slices ↔
      ∃ s1 ∈ slices, ∃ s2 ∈ slices,
        quotaGroupKeyOf s1 = k ∧ quotaGroupKeyOf s2 = k ∧
          s1.PolicyID ≠ s2.PolicyID := by
  unfold buildQuotaKeySet
  rw [List.mem_filter]
  constructor
  · rintro ⟨hk, hlen⟩
    simp only [decide_eq_true_eq] at hlen
    have hnd := List.nodup_dedup ((slices.filter (fun s => quotaGroupKeyOf s == k)).map
        (fun s => s.PolicyID))
    rcases hds : ((slices.filter (fun s => quotaGroupKeyOf s == k)).map
        (fun s => s.PolicyID)).dedup with _ | ⟨a, _ | ⟨b, rest⟩⟩
    · rw [hds] at hlen; simp at hlen
    · rw [hds] at hlen; simp at hlen
    · rw [hds] at hnd
      have hab : a ≠ b := by
        intro h
        exact (List.nodup_cons.mp hnd).1 (h ▸ List.mem_cons_self b rest)
      have ha : a ∈ ((slices.filter (fun s => quotaGroupKeyOf s == k)).map
          (fun s => s.PolicyID)).dedup := by rw [hds]; exact List.mem_cons_self _ _
      have hb : b ∈ ((slices.filter (fun s => quotaGroupKeyOf s == k)).map
          (fun s => s.PolicyID)).dedup := by rw [hds]; simp
      rw [List.mem_dedup] at ha hb
      obtain ⟨s1, hs1, hpa⟩ := List.mem_map.mp ha
      obtain ⟨s2, hs2, hpb⟩ := List.mem_map.mp hb
      obtain ⟨hs1m, hk1⟩ := List.mem_filter.mp hs1
      obtain ⟨hs2m, hk2⟩ := List.mem_filter.mp hs2
      exact ⟨s1, hs1m, s2, hs2m, by simpa using hk1, by simpa using hk2,
        by rw [hpa, hpb]; exact hab⟩
  · rintro ⟨s1, hs1, s2, hs2, hk1, hk2, hne⟩
    have hmem : ∀ s ∈ slices, quotaGroupKeyOf s = k →
        s.PolicyID ∈ ((slices.filter (fun s => quotaGroupKeyOf s == k)).map
          (fun s => s.PolicyID)).dedup := by
      intro s hs hks
      rw [List.mem_dedup]
      exact List.mem_map.mpr ⟨s, List.mem_filter.mpr ⟨hs, by simpa using hks⟩, rfl⟩
    refine ⟨List.mem_dedup.mpr (List.mem_map.mpr ⟨s1, hs1, hk1⟩), ?_⟩
    simp only [decide_eq_true_eq]
    have h1 := hmem s1 hs1 hk1
    have h2 := hmem s2 hs2 hk2
    rcases hds : ((slices.filter (fun s => quotaGroupKeyOf s == k)).map
        (fun s => s.PolicyID)).dedup with _ | ⟨a, _ | ⟨b, rest⟩⟩
    · rw [hds] at h1; cases h1
    · rw [hds] at h1 h2
      have e1 : s1.PolicyID = a := by simpa using h1
      have e2 : s2.PolicyID = a := by simpa using h2
      exact absurd (e1.trans e2.symm) hne
    · rw [hds]; simp

/- ================================
   Availability classifier (`classifyAvailability`)
================================ -/

/-- A raw CSV row: column name → cell value, in column order. -/
abbrev Row : Type := List (String × String)

/-- The normalized-key map JS builds in `getBy`
(`for (const k of Object.keys(obj)) map[normKey(k)] = obj[k]` — a later
column with the same normalized name overwrites an earlier one). -/
def lookupNorm (row : Row) (key : String) : Option String :=
  ((row.map (fun p => (normKey p.1, p.2))).reverse).lookup key

/-- `getBy(obj, ...candidates)`: first candidate whose value is present and
non-blank wins. -/
def getBy (row : Row) : List String → String
  | [] => ""
  | c :: rest =>
      match lookupNorm row (normKey c) with
      | some v => if strTrim v = "" then getBy row rest else v
      | none => getBy row rest

/-- Step 5 of `classifyAvailability`: free-text hints in the carrier row,
else the default `"Available"`. -/
def classifyFromCarrierStatus (_policyRow carrierRow : Row) : String :=
  if strHas (strLower (getBy carrierRow ["Status", "Availability"])) "insolv"
      || strHas (strLower (getBy carrierRow ["Status", "Availability"])) "bankrupt"
      || strHas (strLower (getBy carrierRow ["Status", "Availability"])) "unavail"
  then "Unavailable"
  else "Available"

/-- Step 4 of `classifyAvailability`: free-text hints in the policy row. -/
def classifyFromPolicyStatus (policyRow carrierRow : Row) : String :=
  if strHas (strLower (getBy policyRow ["Status", "Availability", "AvailStatus"])) "insolv"
      || strHas (strLower (getBy policyRow ["Status", "Availability", "AvailStatus"])) "bankrupt"
      || strHas (strLower (getBy policyRow ["Status", "Availability", "AvailStatus"])) "unavail"
  then "Unavailable"
  else classifyFromCarrierStatus policyRow carrierRow

/-- Step 3 of `classifyAvailability`: policy-level insolvent flags. -/
def classifyFromInsolvent (policyRow carrierRow : Row) : String :=
  if strTrim (getBy policyRow ["Insolvent", "IsInsolvent", "binsolvent"]) ≠ "" then
    if strLower (strTrim (getBy policyRow ["Insolvent", "IsInsolvent", "binsolvent"])) = "1"
        || strLower (strTrim (getBy policyRow ["Insolvent", "IsInsolvent", "binsolvent"])) = "true"
        || strLower (strTrim (getBy policyRow ["Insolvent", "IsInsolvent", "binsolvent"])) = "yes"
        || strLower (strTrim (getBy policyRow ["Insolvent", "IsInsolvent", "binsolvent"])) = "y"
    then "Unavailable"
    else classifyFromPolicyStatus policyRow carrierRow
  else classifyFromPolicyStatus policyRow carrierRow

/-- Step 2 of `classifyAvailability`: the policy-level collectible flag. -/
def classifyFromCollectible (policyRow carrierRow : Row) : String :=
  if strTrim (getBy policyRow ["Collectible", "IsCollectible", "bcollectible"]) ≠ "" then
    if strLower (strTrim (getBy policyRow ["Collectible", "IsCollectible", "bcollectible"])) = "0"
        || strLower (strTrim (getBy policyRow ["Collectible", "IsCollectible", "bcollectible"])) = "false"
        || strLower (strTrim (getBy policyRow ["Collectible", "IsCollectible", "bcollectible"])) = "no"
        || strLower (strTrim (getBy policyRow ["Collectible", "IsCollectible", "bcollectible"])) = "n"
    then "Unavailable"
    else if strLower (strTrim (getBy policyRow ["Collectible", "IsCollectible", "bcollectible"])) = "1"
        || strLower (strTrim (getBy policyRow ["Collectible", "IsCollectible", "bcollectible"])) = "true"
        || strLower (strTrim (getBy policyRow ["Collectible", "IsCollectible", "bcollectible"])) = "yes"
        || strLower (strTrim (getBy policyRow ["Collectible", "IsCollectible", "bcollectible"])) = "y"
    then "Available"
    else classifyFromInsolvent policyRow carrierRow
  else classifyFromInsolvent policyRow carrierRow

/-- `classifyAvailability(policyRow, carrierRow)`: the heuristic
availability classifier.  The helper defs above are the source function's
numbered blocks 2–5 (the JS body is one straight-line function whose
blocks fall through to the next when no pattern matches); block 1 — the
explicit carrier solvency field — is inline here. -/
def classifyAvailability (policyRow carrierRow : Row) : String :=
  if strTrim (getBy carrierRow ["CarrierSolvency", "Solvency", "SolvencyStatus", "FinancialStatus"]) ≠ "" then
    if strHas (strLower (strTrim (getBy carrierRow ["CarrierSolvency", "Solvency", "SolvencyStatus", "FinancialStatus"]))) "insolv"
        || strHas (strLower (strTrim (getBy carrierRow ["CarrierSolvency", "Solvency", "SolvencyStatus", "FinancialStatus"]))) "bankrupt"
        || strHas (strLower (strTrim (getBy carrierRow ["CarrierSolvency", "Solvency", "SolvencyStatus", "FinancialStatus"]))) "liquidat"
    then "Unavailable"
    else if strHas (strLower (strTrim (getBy carrierRow ["CarrierSolvency", "Solvency", "SolvencyStatus", "FinancialStatus"]))) "solvent"
        || strHas (strLower (strTrim (getBy carrierRow ["CarrierSolvency", "Solvency", "SolvencyStatus", "FinancialStatus"]))) "active"
        || strHas (strLower (strTrim (getBy carrierRow ["CarrierSolvency", "Solvency", "SolvencyStatus", "FinancialStatus"]))) "good"
    then "Available"
    else if strLower (strTrim (getBy carrierRow ["CarrierSolvency", "Solvency", "SolvencyStatus", "FinancialStatus"])) = "0"
        || strLower (strTrim (getBy carrierRow ["CarrierSolvency", "Solvency", "SolvencyStatus", "FinancialStatus"])) = "false"
        || strLower (strTrim (getBy carrierRow ["CarrierSolvency", "Solvency", "SolvencyStatus", "FinancialStatus"])) = "no"
        || strLower (strTrim (getBy carrierRow ["CarrierSolvency", "Solvency", "SolvencyStatus", "FinancialStatus"])) = "n"
    then "Unavailable"
    else if strLower (strTrim (getBy carrierRow ["CarrierSolvency", "Solvency", "SolvencyStatus", "FinancialStatus"])) = "1"
        || strLower (strTrim (getBy carrierRow ["CarrierSolvency", "Solvency", "SolvencyStatus", "FinancialStatus"])) = "true"
        || strLower (strTrim (getBy carrierRow ["CarrierSolvency", "Solvency", "SolvencyStatus", "FinancialStatus"])) = "yes"
        || strLower (strTrim (getBy carrierRow ["CarrierSolvency", "Solvency", "SolvencyStatus", "FinancialStatus"])) = "y"
    then "Available"
    else classifyFromCollectible policyRow carrierRow
  else classifyFromCollectible policyRow carrierRow

/-- Modelled from the spec: signal 1 of the precedence chain — the explicit
carrier solvency field; `none` when the field is absent or matches no
pattern. -/
def carrierSolvencySignal (_policyRow carrierRow : Row) : Option String :=
  if strTrim (getBy carrierRow ["CarrierSolvency", "Solvency", "SolvencyStatus", "FinancialStatus"]) ≠ "" then
    if strHas (strLower (strTrim (getBy carrierRow ["CarrierSolvency", "Solvency", "SolvencyStatus", "FinancialStatus"]))) "insolv"
        || strHas (strLower (strTrim (getBy carrierRow ["CarrierSolvency", "Solvency", "SolvencyStatus", "FinancialStatus"]))) "bankrupt"
        || strHas (strLower (strTrim (getBy carrierRow ["CarrierSolvency", "Solvency", "SolvencyStatus", "FinancialStatus"]))) "liquidat"
    then some "Unavailable"
    else if strHas (strLower (strTrim (getBy carrierRow ["CarrierSolvency", "Solvency", "SolvencyStatus", "FinancialStatus"]))) "solvent"
        || strHas (strLower (strTrim (getBy carrierRow ["CarrierSolvency", "Solvency", "SolvencyStatus", "FinancialStatus"]))) "active"
        || strHas (strLower (strTrim (getBy carrierRow ["CarrierSolvency", "Solvency", "SolvencyStatus", "FinancialStatus"]))) "good"
    then some "Available"
    else if strLower (strTrim (getBy carrierRow ["CarrierSolvency", "Solvency", "SolvencyStatus", "FinancialStatus"])) = "0"
        || strLower (strTrim (getBy carrierRow ["CarrierSolvency", "Solvency", "SolvencyStatus", "FinancialStatus"])) = "false"
        || strLower (strTrim (getBy carrierRow ["CarrierSolvency", "Solvency", "SolvencyStatus", "FinancialStatus"])) = "no"
        || strLower (strTrim (getBy carrierRow ["CarrierSolvency", "Solvency", "SolvencyStatus", "FinancialStatus"])) = "n"
    then some "Unavailable"
    else if strLower (strTrim (getBy carrierRow ["CarrierSolvency", "Solvency", "SolvencyStatus", "FinancialStatus"])) = "1"
        || strLower (strTrim (getBy carrierRow ["CarrierSolvency", "Solvency", "SolvencyStatus", "FinancialStatus"])) = "true"
        || strLower (strTrim (getBy carrierRow ["CarrierSolvency", "Solvency", "SolvencyStatus", "FinancialStatus"])) = "yes"
        || strLower (strTrim (getBy carrierRow ["CarrierSolvency", "Solvency", "SolvencyStatus", "FinancialStatus"])) = "y"
    then some "Available"
    else none
  else none

/-- Modelled from the spec: signal 2 — the policy-level collectibility flag. -/
def policyCollectibleSignal (policyRow _carrierRow : Row) : Option String :=
  if strTrim (getBy policyRow ["Collectible", "IsCollectible", "bcollectible"]) ≠ "" then
    if strLower (strTrim (getBy policyRow ["Collectible", "IsCollectible", "bcollectible"])) = "0"
        || strLower (strTrim (getBy policyRow ["Collectible", "IsCollectible", "bcollectible"])) = "false"
        || strLower (strTrim (getBy policyRow ["Collectible", "IsCollectible", "bcollectible"])) = "no"
        || strLower (strTrim (getBy policyRow ["Collectible", "IsCollectible", "bcollectible"])) = "n"
    then some "Unavailable"
    else if strLower (strTrim (getBy policyRow ["Collectible", "IsCollectible", "bcollectible"])) = "1"
        || strLower (strTrim (getBy policyRow ["Collectible", "IsCollectible", "bcollectible"])) = "true"
        || strLower (strTrim (getBy policyRow ["Collectible", "IsCollectible", "bcollectible"])) = "yes"
        || strLower (strTrim (getBy policyRow ["Collectible", "IsCollectible", "bcollectible"])) = "y"
    then some "Available"
    else none
  else none

/-- Modelled from the spec: signal 3 — the policy-level insolvency flag. -/
def policyInsolventSignal (policyRow _carrierRow : Row) : Option String :=
  if strTrim (getBy policyRow ["Insolvent", "IsInsolvent", "binsolvent"]) ≠ "" then
    if strLower (strTrim (getBy policyRow ["Insolvent", "IsInsolvent", "binsolvent"])) = "1"
        || strLower (strTrim (getBy policyRow ["Insolvent", "IsInsolvent", "binsolvent"])) = "true"
        || strLower (strTrim (getBy policyRow ["Insolvent", "IsInsolvent", "binsolvent"])) = "yes"
        || strLower (strTrim (getBy policyRow ["Insolvent", "IsInsolvent", "binsolvent"])) = "y"
    then some "Unavailable"
    else none
  else none

/-- Modelled from the spec: signal 4 — free-text status keywords on the
policy row. -/
def policyStatusSignal (policyRow _carrierRow : Row) : Option String :=
  if strHas (strLower (getBy policyRow ["Status", "Availability", "AvailStatus"])) "insolv"
      || strHas (strLower (getBy policyRow ["Status", "Availability", "AvailStatus"])) "bankrupt"
      || strHas (strLower (getBy policyRow ["Status", "Availability", "AvailStatus"])) "unavail"
  then some "Unavailable"
  else none

/-- Modelled from the spec: signal 5 — free-text status keywords on the
carrier row. -/
def carrierStatusSignal (_policyRow carrierRow : Row) : Option String :=
  if strHas (strLower (getBy carrierRow ["Status", "Availability"])) "insolv"
      || strHas (strLower (getBy carrierRow ["Status", "Availability"])) "bankrupt"
      || strHas (strLower (getBy carrierRow ["Status", "Availability"])) "unavail"
  then some "Unavailable"
  else none

/-- Modelled from the spec: the fixed signal order of section 4.1. -/
def availabilitySignals : List (Row → Row → Option String) :=
  [carrierSolvencySignal, policyCollectibleSignal, policyInsolventSignal,
   policyStatusSignal, carrierStatusSignal]

/-- Modelled from the spec: evaluate signals in order; the first matching
signal alone decides; if none matches, default to Available. -/
def availabilityByPrecedence (policyRow carrierRow : Row) : String :=
  availabilitySignals.foldr
    (fun sig rest => match sig policyRow carrierRow with
      | some r => r
      | none => rest)
    "Available"

/-- C7. Availability precedence chain: the classifier agrees, on every pair
of rows, with the spec's ordered first-match-wins rule list (signals 1–5 in
the stated order, default Available).  In particular, once a signal fires
the later signals cannot influence the result, and if no signal matches the
result is `"Available"`. -/
theorem classifyAvailability_eq_precedence (policyRow carrierRow : Row) :
    classifyAvailability policyRow carrierRow
      = availabilityByPrecedence policyRow carrierRow := by
  have l5 : classifyFromCarrierStatus policyRow carrierRow
      = (match carrierStatusSignal policyRow carrierRow with
          | some r => r
          | none => "Available") := by
    unfold classifyFromCarrierStatus carrierStatusSignal
    by_cases h : (strHas (strLower (getBy carrierRow ["Status", "Availability"])) "insolv"
        || strHas (strLower (getBy carrierRow ["Status", "Availability"])) "bankrupt"
        || strHas (strLower (getBy carrierRow ["Status", "Availability"])) "unavail") = true
    · rw [if_pos h, if_pos h]
    · rw [if_neg h, if_neg h]
  have l4 : classifyFromPolicyStatus policyRow carrierRow
      = (match policyStatusSignal policyRow carrierRow with
          | some r => r
          | none => classifyFromCarrierStatus policyRow carrierRow) := by
    unfold classifyFromPolicyStatus policyStatusSignal
    by_cases h : (strHas (strLower (getBy policyRow ["Status", "Availability", "AvailStatus"])) "insolv"
        || strHas (strLower (getBy policyRow ["Status", "Availability", "AvailStatus"])) "bankrupt"
        || strHas (strLower (getBy policyRow ["Status", "Availability", "AvailStatus"])) "unavail") = true
    · rw [if_pos h, if_pos h]
    · rw [if_neg h, if_neg h]
  have l3 : classifyFromInsolvent policyRow carrierRow
      = (match policyInsolventSignal policyRow carrierRow with
          | some r => r
          | none => classifyFromPolicyStatus policyRow carrierRow) := by
    unfold classifyFromInsolvent policyInsolventSignal
    by_cases h1 : strTrim (getBy policyRow ["Insolvent", "IsInsolvent", "binsolvent"]) ≠ ""
    · rw [if_pos h1, if_pos h1]
      by_cases h2 : (strLower (strTrim (getBy policyRow ["Insolvent", "IsInsolvent", "binsolvent"])) = "1"
          || strLower (strTrim (getBy policyRow ["Insolvent", "IsInsolvent", "binsolvent"])) = "true"
          || strLower (strTrim (getBy policyRow ["Insolvent", "IsInsolvent", "binsolvent"])) = "yes"
          || strLower (strTrim (getBy policyRow ["Insolvent", "IsInsolvent", "binsolvent"])) = "y") = true
      · rw [if_pos h2, if_pos h2]
      · rw [if_neg h2, if_neg h2]
    · rw [if_neg h1, if_neg h1]
  have l2 : classifyFromCollectible policyRow carrierRow
      = (match policyCollectibleSignal policyRow carrierRow with
          | some r => r
          | none => classifyFromInsolvent policyRow carrierRow) := by
    unfold classifyFromCollectible policyCollectibleSignal
    by_cases h1 : strTrim (getBy policyRow ["Collectible", "IsCollectible", "bcollectible"]) ≠ ""
    · rw [if_pos h1, if_pos h1]
      by_cases h2 : (strLower (strTrim (getBy policyRow ["Collectible", "IsCollectible", "bcollectible"])) = "0"
          || strLower (strTrim (getBy policyRow ["Collectible", "IsCollectible", "bcollectible"])) = "false"
          || strLower (strTrim (getBy policyRow ["Collectible", "IsCollectible", "bcollectible"])) = "no"
          || strLower (strTrim (getBy policyRow ["Collectible", "IsCollectible", "bcollectible"])) = "n") = true
      · rw [if_pos h2, if_pos h2]
      · rw [if_neg h2, if_neg h2]
        by_cases h3 : (strLower (strTrim (getBy policyRow ["Collectible", "IsCollectible", "bcollectible"])) = "1"
            || strLower (strTrim (getBy policyRow ["Collectible", "IsCollectible", "bcollectible"])) = "true"
            || strLower (strTrim (getBy policyRow ["Collectible", "IsCollectible", "bcollectible"])) = "yes"
            || strLower (strTrim (getBy policyRow ["Collectible", "IsCollectible", "bcollectible"])) = "y") = true
        · rw [if_pos h3, if_pos h3]
        · rw [if_neg h3, if_neg h3]
    · rw [if_neg h1, if_neg h1]
  have l1 : classifyAvailability policyRow carrierRow
      = (match carrierSolvencySignal policyRow carrierRow with
          | some r => r
          | none => classifyFromCollectible policyRow carrierRow) := by
    unfold classifyAvailability carrierSolvencySignal
    by_cases h1 : strTrim (getBy carrierRow ["CarrierSolvency", "Solvency", "SolvencyStatus", "FinancialStatus"]) ≠ ""
    · rw [if_pos h1, if_pos h1]
      by_cases h2 : (strHas (strLower (strTrim (getBy carrierRow ["CarrierSolvency", "Solvency", "SolvencyStatus", "FinancialStatus"]))) "insolv"
          || strHas (strLower (strTrim (getBy carrierRow ["CarrierSolvency", "Solvency", "SolvencyStatus", "FinancialStatus"]))) "bankrupt"
          || strHas (strLower (strTrim (getBy carrierRow ["CarrierSolvency", "Solvency", "SolvencyStatus", "FinancialStatus"]))) "liquidat") = true
      · rw [if_pos h2, if_pos h2]
      · rw [if_neg h2, if_neg h2]
        by_cases h3 : (strHas (strLower (strTrim (getBy carrierRow ["CarrierSolvency", "Solvency", "SolvencyStatus", "FinancialStatus"]))) "solvent"
            || strHas (strLower (strTrim (getBy carrierRow ["CarrierSolvency", "Solvency", "SolvencyStatus", "FinancialStatus"]))) "active"
            || strHas (strLower (strTrim (getBy carrierRow ["CarrierSolvency", "Solvency", "SolvencyStatus", "FinancialStatus"]))) "good") = true
        · rw [if_pos h3, if_pos h3]
        · rw [if_neg h3, if_neg h3]
          by_cases h4 : (strLower (strTrim (getBy carrierRow ["CarrierSolvency", "Solvency", "SolvencyStatus", "FinancialStatus"])) = "0"
              || strLower (strTrim (getBy carrierRow ["CarrierSolvency", "Solvency", "SolvencyStatus", "FinancialStatus"])) = "false"
              || strLower (strTrim (getBy carrierRow ["CarrierSolvency", "Solvency", "SolvencyStatus", "FinancialStatus"])) = "no"
              || strLower (strTrim (getBy carrierRow ["CarrierSolvency", "Solvency", "SolvencyStatus", "FinancialStatus"])) = "n") = true
          · rw [if_pos h4, if_pos h4]
          · rw [if_neg h4, if_neg h4]
            by_cases h5 : (strLower (strTrim (getBy carrierRow ["CarrierSolvency", "Solvency", "SolvencyStatus", "FinancialStatus"])) = "1"
                || strLower (strTrim (getBy carrierRow ["CarrierSolvency", "Solvency", "SolvencyStatus", "FinancialStatus"])) = "true"
                || strLower (strTrim (getBy carrierRow ["CarrierSolvency", "Solvency", "SolvencyStatus", "FinancialStatus"])) = "yes"
                || strLower (strTrim (getBy carrierRow ["CarrierSolvency", "Solvency", "SolvencyStatus", "FinancialStatus"])) = "y") = true
            · rw [if_pos h5, if_pos h5]
            · rw [if_neg h5, if_neg h5]
    · rw [if_neg h1, if_neg h1]
  unfold availabilityByPrecedence availabilitySignals
  simp only [List.foldr_cons, List.foldr_nil]
  rw [l1]
  cases carrierSolvencySignal policyRow carrierRow with
  | some r => rfl
  | none =>
      simp only
      rw [l2]
      cases policyCollectibleSignal policyRow carrierRow with
      | some r => rfl
      | none =>
          simp only
          rw [l3]
          cases policyInsolventSignal policyRow carrierRow with
          | some r => rfl
          | none =>
              simp only
              rw [l4]
              cases policyStatusSignal policyRow carrierRow with
              | some r => rfl
              | none =>
                  simp only
                  rw [l5]

/- ================================
   Temporal segmentation and layer stacking
   (`buildDatasetsForView`, year-axis path)
================================ -/

/-- Merge epsilon from the source (`const eps = 1e-9`). -/
def eps : ℚ := mkRat 1 1000000000

/-- A participant record as pushed for each contributing slice of a raw
segment. -/
structure Participant where
  pid : String
  carrier : String
  carrierGroup : String
  insuranceProgram : String
  availability : String
  policy_no : String
  policyLimitType : String
  policyStartMs : ℤ
  policyEndMs : ℤ
  segmentStartMs : ℤ
  segmentEndMs : ℤ
  sliceLimit : ℚ
  xStartValue : ℚ
  xEndValue : ℚ
  sirPerOcc : ℚ
  sirAggregate : ℚ
  quotaGroupKey : String
  deriving Repr, DecidableEq

/-- A row of `bucket.slices` (the per-bucket working records). -/
structure BucketRow where
  source : Slice
  sliceQuotaKey : String
  limit : ℚ
  xStartValue : ℚ
  xEndValue : ℚ
  deriving Repr, DecidableEq

/-- A bucket of the year-mode day-accurate map, keyed by
`group || attach || quotaGroupKey`. -/
structure Bucket where
  group : String
  attach : ℚ
  quotaGroupKey : String
  slices : List BucketRow
  deriving Repr, DecidableEq

/-- The entity-filter selection (`getSelectionSets`). -/
structure Selection where
  carriers : List String
  carrierGroups : List String
  deriving Repr, DecidableEq

/-- `[...new Set(values.map(trim).filter(Boolean))].sort(localeCompare)`. -/
def normalizeStringList (vs : List String) : List String :=
  stSort strLe (((vs.map strTrim).filter (fun v => v ≠ "")).dedup)

/-- `selection.active`: some carrier or carrier-group filter is selected. -/
def selectionActive (sel : Selection) : Bool :=
  !sel.carriers.isEmpty || !sel.carrierGroups.isEmpty

/-- `sliceMatchesSelection(slice, selection)`. -/
def sliceMatchesSelection (s : Slice) (sel : Selection) : Bool :=
  if !selectionActive sel then true
  else
    (sel.carriers.isEmpty || sel.carriers.contains s.carrier) &&
    (sel.carrierGroups.isEmpty || sel.carrierGroups.contains s.carrierGroup)

/-- `isUnavailable(s)`. -/
def isUnavailableSlice (s : Slice) : Bool :=
  strHas (strLower s.availability) "unavail"

/-- `isQuotaSlice(s)`: membership of the slice's quota key in the quota key
set handed to `buildDatasetsForView`. -/
def isQuotaSlice (qset : List String) (s : Slice) : Bool :=
  qset.contains (quotaGroupKeyOf s)

/-- `keyOf(s)`: the display-group (legend bucket) of a slice for the given
view. -/
def keyOfSlice (view : String) (qset : List String) (s : Slice) : String :=
  if view = "carrier" || view = "carrierGroup" then
    if isQuotaSlice qset s then "Quota share"
    else if isUnavailableSlice s then "Unavailable"
    else if view = "carrier" then jsOrS s.carrier "(unknown carrier)"
    else jsOrS s.carrierGroup "(unknown group)"
  else if isUnavailableSlice s then "Unavailable"
  else jsOrS s.availability "Available"

/-- `isHiddenBySyntheticLegend(s)`: slices of a legend-hidden carrier or
carrier group are skipped entirely. -/
def isHiddenBySyntheticLegend (view : String)
    (hiddenCarriers hiddenCarrierGroups : List String) (s : Slice) : Bool :=
  if view = "carrier" then
    decide (strTrim s.carrier ≠ "") && hiddenCarriers.contains (strTrim s.carrier)
  else if view = "carrierGroup" then
    decide (strTrim s.carrierGroup ≠ "") && hiddenCarrierGroups.contains (strTrim s.carrierGroup)
  else false

/-- Insert a row into the bucket association list (JS `Map` keyed by the
string `group || attach || quotaGroupKey`, insertion ordered). -/
def addBucketRow : List (String × Bucket) → String → Bucket → BucketRow →
    List (String × Bucket)
  | [], k, b0, r => [(k, { b0 with slices := [r] })]
  | (k', b) :: rest, k, b0, r =>
      if k' = k then (k', { b with slices := b.slices ++ [r] }) :: rest
      else (k', b) :: addBucketRow rest k b0 r

/-- The year-axis bucket-building loop of `buildDatasetsForView` (lines
building `bucketMap` and the `groups` set).  Returns the display groups in
first-seen order and the buckets in insertion order. -/
def buildBuckets (view : String) (qset : List String)
    (hiddenCarriers hiddenCarrierGroups : List String) (slices : List Slice) :
    List String × List (String × Bucket) :=
  slices.foldl
    (fun acc s =>
      if isHiddenBySyntheticLegend view hiddenCarriers hiddenCarrierGroups s then acc
      else
        let group := keyOfSlice view qset s
        let groups := if acc.1.contains group then acc.1 else acc.1 ++ [group]
        if ¬(s.xEndValue > s.xStartValue) then (groups, acc.2)
        else
          let sliceQuotaKey := quotaGroupKeyOf s
          let qk := if (view = "carrier" || view = "carrierGroup") && isQuotaSlice qset s
            then sliceQuotaKey else ""
          let bkey := group ++ "||" ++ toString s.attach ++ "||" ++ qk
          let row : BucketRow :=
            { source := s, sliceQuotaKey := sliceQuotaKey, limit := s.sliceLimit,
              xStartValue := s.xStartValue, xEndValue := s.xEndValue }
          (groups, addBucketRow acc.2 bkey
            { group := group, attach := s.attach, quotaGroupKey := qk, slices := [] } row))
    ([], [])

/-- Sorted distinct interval boundaries of a bucket
(`Array.from(new Set(...)).sort((a, b) => a - b)`). -/
def boundsOf (rows : List BucketRow) : List ℚ :=
  stSort (fun a b => decide (a ≤ b))
    ((rows.flatMap (fun r => [r.xStartValue, r.xEndValue])).dedup)

/-- Consecutive pairs of the boundary list. -/
def adjPairs : List ℚ → List (ℚ × ℚ)
  | a :: b :: rest => (a, b) :: adjPairs (b :: rest)
  | _ => []

/-- A raw or merged time segment of one bucket. -/
structure Seg where
  segStart : ℚ
  segEnd : ℚ
  segLimit : ℚ
  participants : List Participant
  hasSelectionMatch : Bool
  signature : String
  deriving Repr, DecidableEq

/-- `${pid}||${limit}||${quotaKey}` for the participant signature. -/
def encodeParticipant (p : Participant) : String :=
  p.pid ++ "||" ++ toString p.sliceLimit ++ "||" ++ p.quotaGroupKey

/-- Order-independent participant signature: encoded entries sorted and
joined with `##`. -/
def signatureOf (ps : List Participant) : String :=
  String.intercalate "##" (stSort strLe (ps.map encodeParticipant))

/-- The participant record built for an active row of a segment. -/
def mkParticipant (bucketQuotaKey : String) (segStart segEnd : ℚ) (r : BucketRow) :
    Participant :=
  { pid := r.source.PolicyID
    carrier := r.source.carrier
    carrierGroup := r.source.carrierGroup
    insuranceProgram := r.source.insuranceProgram
    availability := r.source.availability
    policy_no := r.source.policy_no
    policyLimitType := jsOrS r.source.policyLimitType r.source.policyLimitTypeId
    policyStartMs := r.source.policyStartMs
    policyEndMs := r.source.policyEndMs
    segmentStartMs := jsOrMs r.source.yearOverlapStartMs r.source.policyStartMs
    segmentEndMs := jsOrMs r.source.yearOverlapEndMs r.source.policyEndMs
    sliceLimit := r.limit
    xStartValue := segStart
    xEndValue := segEnd
    sirPerOcc := r.source.sirPerOcc
    sirAggregate := r.source.sirAggregate
    quotaGroupKey := if bucketQuotaKey ≠ "" then r.sliceQuotaKey else "" }

/-- One consecutive boundary pair of the sweep: `none` when the active set
is empty or the summed limit is not positive. -/
def rawSegOfPair (sel : Selection) (bucketQuotaKey : String) (rows : List BucketRow)
    (ab : ℚ × ℚ) : Option Seg :=
  if ¬(ab.2 > ab.1) then none
  else
    let activeRows := rows.filter (fun r => r.xStartValue < ab.2 && r.xEndValue > ab.1)
    if activeRows.isEmpty then none
    else
      let positives := activeRows.filter (fun r => 0 < r.limit)
      let segLimit := qSum (positives.map (fun r => r.limit))
      let participants := positives.map (mkParticipant bucketQuotaKey ab.1 ab.2)
      if ¬(0 < segLimit) then none
      else some
        { segStart := ab.1, segEnd := ab.2, segLimit := segLimit,
          participants := participants,
          hasSelectionMatch := positives.any (fun r => sliceMatchesSelection r.source sel),
          signature := signatureOf participants }

/-- The boundary sweep of one bucket: a raw segment per consecutive boundary
pair with a non-empty active set and positive summed limit. -/
def rawSegmentsOf (sel : Selection) (bucketQuotaKey : String) (rows : List BucketRow) :
    List Seg :=
  (adjPairs (boundsOf rows)).filterMap (rawSegOfPair sel bucketQuotaKey rows)

/-- The merge condition of the non-annualized path: time-contiguous within
`eps`, identical signature, and summed limits equal within `eps`. -/
def canMerge (prev seg : Seg) : Bool :=
  decide (qAbs (qSub prev.segEnd seg.segStart) < eps) && (prev.signature == seg.signature) &&
    decide (qAbs (qSub prev.segLimit seg.segLimit) < eps)

/-- `prev.segEnd = seg.segEnd; prev.hasSelectionMatch ||= seg.hasSelectionMatch`. -/
def mergeInto (prev seg : Seg) : Seg :=
  { prev with
    segEnd := seg.segEnd
    hasSelectionMatch := prev.hasSelectionMatch || seg.hasSelectionMatch }

/-- The merge loop with `cur` as the currently open last segment. -/
def mergeAux (cur : Seg) : List Seg → List Seg
  | [] => [cur]
  | s :: rest =>
      if canMerge cur s then mergeAux (mergeInto cur s) rest
      else cur :: mergeAux s rest

/-- The merge pass over the raw segment list (`finalSegments` construction,
non-annualized). -/
def mergeSegments : List Seg → List Seg
  | [] => []
  | s :: rest => mergeAux s rest

/-- Final segments of one bucket: raw copies in annualized mode, merged
otherwise. -/
def finalSegmentsOf (sel : Selection) (annualized : Bool) (bucketQuotaKey : String)
    (rows : List BucketRow) : List Seg :=
  if annualized then rawSegmentsOf sel bucketQuotaKey rows
  else mergeSegments (rawSegmentsOf sel bucketQuotaKey rows)

/-- `yearLabelFromAxisValue(v)`: `String(Math.floor(n + 0.5))`. -/
def yearLabelFromAxisValue (v : ℚ) : String := toString (ratFloor (qAdd v (mkRat 1 2)))

/-- A `layerMap` entry (one final segment of one bucket, ready to become a
drawable point).  The JS `layerMap` is keyed by a string containing group,
attachment, both segment ends and the quota key, so within a run its
entries are distinct; it is embedded as the insertion-ordered list of
entries. -/
structure LayerEntry where
  group : String
  x : String
  yearLabel : String
  xStartValue : ℚ
  xEndValue : ℚ
  xMidValue : ℚ
  attach : ℚ
  quotaGroupKey : String
  sumLimit : ℚ
  participants : List Participant
  hasSelectionMatch : Bool
  deriving Repr, DecidableEq

/-- The `for (const seg of finalSegments)` loop producing layer entries. -/
def layerEntriesOfBucket (sel : Selection) (annualized : Bool) (b : Bucket) :
    List LayerEntry :=
  (finalSegmentsOf sel annualized b.quotaGroupKey b.slices).map (fun seg =>
    { group := b.group
      x := yearLabelFromAxisValue (qDiv (qAdd seg.segStart seg.segEnd) 2)
      yearLabel := yearLabelFromAxisValue (qDiv (qAdd seg.segStart seg.segEnd) 2)
      xStartValue := seg.segStart
      xEndValue := seg.segEnd
      xMidValue := qDiv (qAdd seg.segStart seg.segEnd) 2
      attach := b.attach
      quotaGroupKey := b.quotaGroupKey
      sumLimit := seg.segLimit
      participants := seg.participants
      hasSelectionMatch := seg.hasSelectionMatch })

/-- A drawable point of a dataset (the fields pushed in the
`groupList.map` loop; the `y` pair is `[attach, top]`). -/
structure Point where
  x : ℚ
  xStart : ℚ
  xEnd : ℚ
  yearLabel : String
  attach : ℚ
  top : ℚ
  sumLimit : ℚ
  participants : List Participant
  group : String
  annualized : Bool
  isQuotaShare : Bool
  quotaGroupKey : String
  isHighlighted : Bool
  deriving Repr, DecidableEq

/-- The participant draw-order comparator: descending individual limit,
ties by carrier name. -/
def participantLe (a b : Participant) : Bool :=
  decide (b.sliceLimit < a.sliceLimit) ||
    (a.sliceLimit == b.sliceLimit && strLe a.carrier b.carrier)

/-- The point sort of the year-axis path: by `xStart`, then `xEnd`, then
attachment. -/
def pointLe (a b : Point) : Bool :=
  decide (a.xStart < b.xStart) ||
    (a.xStart == b.xStart &&
      (decide (a.xEnd < b.xEnd) ||
        (a.xEnd == b.xEnd && decide (a.attach ≤ b.attach))))

/-- Unavailable-last key of the availability-view group sort. -/
def availabilityOrder (v : String) : Nat :=
  if strHas (strLower v) "unavail" then 1 else 0

/-- Group (legend bucket) sort: quota first then alphabetical in the
carrier views, available-before-unavailable in availability view. -/
def sortGroupList (view : String) (groups : List String) : List String :=
  if view = "availability" then
    stSort (fun a b => decide (availabilityOrder a ≤ availabilityOrder b)) groups
  else if view = "carrier" || view = "carrierGroup" then
    stSort (fun a b =>
      if a = "Quota share" then true
      else if b = "Quota share" then false
      else strLe a b) groups
  else stSort strLe groups

/-- Turn a layer entry into a drawable point
(`top = attach + sumLimit`, participants sorted, quota flag from the quota
key set). -/
def mkPoint (qset : List String) (sel : Selection) (annualized : Bool)
    (e : LayerEntry) : Point :=
  { x := e.xMidValue
    xStart := e.xStartValue
    xEnd := e.xEndValue
    yearLabel := jsOrS e.yearLabel e.x
    attach := e.attach
    top := qAdd e.attach e.sumLimit
    sumLimit := e.sumLimit
    participants := stSort participantLe e.participants
    group := e.group
    annualized := annualized
    isQuotaShare := decide (e.quotaGroupKey ≠ "") && qset.contains e.quotaGroupKey
    quotaGroupKey := e.quotaGroupKey
    isHighlighted := !selectionActive sel || e.hasSelectionMatch }

/-- `buildDatasetsForView` (year-axis path): datasets as
(label, ordered points) pairs.  The purely visual dataset fields (colors,
bar thickness, z-order) are rendering configuration and are not modelled. -/
def buildDatasetsForViewYear (slices : List Slice) (view : String)
    (qset : List String) (sel : Selection)
    (hiddenCarriers hiddenCarrierGroups : List String) (annualized : Bool) :
    List (String × List Point) :=
  let gb := buildBuckets view qset hiddenCarriers hiddenCarrierGroups slices
  let entries := gb.2.flatMap (fun kb => layerEntriesOfBucket sel annualized kb.2)
  (sortGroupList view gb.1).map (fun g =>
    (g, stSort pointLe
      ((entries.filter (fun e => e.group == g)).map (mkPoint qset sel annualized))))

/- ================================
   Quota-share evidence gate (`hasExplicitQuotaShareEvidence`)
================================ -/

/-- The alternatives of the column-name hint regex
`/(quota|share|coinsur|co-insur|participation|participat|percent|pct)/i`. -/
def keyHintStrs : List String :=
  ["quota", "share", "coinsur", "co-insur", "participation", "participat", "percent", "pct"]

/-- `keyHint.test(k)`. -/
def keyHint (k : String) : Bool := keyHintStrs.any (fun pat => strHasCI k pat)

/-- The alternatives of the value hint regex `/(quota|share|co-?insur)/i`
(`co-?insur` matches both `coinsur` and `co-insur`). -/
def valueHintStrs : List String := ["quota", "share", "coinsur", "co-insur"]

/-- `valueHint.test(v)`. -/
def valueHint (v : String) : Bool := valueHintStrs.any (fun pat => strHasCI v pat)

/-- `quota` followed by optional whitespace then `share`, at the head. -/
def quotaPhraseAt (l : List Char) : Bool :=
  charsHasPre ['q', 'u', 'o', 't', 'a'] l &&
    charsHasPre ['s', 'h', 'a', 'r', 'e'] ((l.drop 5).dropWhile isWsChar)

/-- Scan for the phrase anywhere in the character list. -/
def charsQuotaPhrase : List Char → Bool
  | [] => false
  | c :: cs => quotaPhraseAt (c :: cs) || charsQuotaPhrase cs

/-- `explicitQuotaPhrase.test(v)` for `/quota\s*share/i`. -/
def explicitQuotaPhrase (v : String) : Bool := charsQuotaPhrase (strLower v).data

/-- `String(v).replace(/[^0-9.-]/g, "")`. -/
def cleanNumChars (s : String) : List Char :=
  s.data.filter (fun c => c.isDigit || c = '.' || c = '-')

/-- Numeric value of a digit run. -/
def valOfDigits (ds : List Char) : ℕ :=
  ds.foldl (fun a c => a * 10 + (c.toNat - 48)) 0

/-- `Number(cleaned)` on a string of digits, `.` and `-` only: empty string
is `0`; otherwise an optional leading `-`, integer digits, an optional `.`
and fraction digits, with at least one digit and nothing left over;
anything else is NaN (`none`). -/
def jsNumberOfCleaned (cs : List Char) : Option ℚ :=
  match cs with
  | [] => some 0
  | _ =>
    let neg : Bool := match cs with | '-' :: _ => true | _ => false
    let body : List Char := match cs with | '-' :: r => r | r => r
    let ip := body.takeWhile (fun c => c.isDigit)
    let rest := body.dropWhile (fun c => c.isDigit)
    let fp : List Char := match rest with
      | '.' :: r => r.takeWhile (fun c => c.isDigit)
      | _ => []
    let leftover : List Char := match rest with
      | '.' :: r => r.dropWhile (fun c => c.isDigit)
      | r => r
    if leftover ≠ [] then none
    else if ip.isEmpty && fp.isEmpty then none
    else
      let v : ℚ := qAdd ((valOfDigits ip : ℕ) : ℚ)
        (qDiv ((valOfDigits fp : ℕ) : ℚ) ((10 ^ fp.length : ℕ) : ℚ))
      some (if neg then -v else v)

/-- `looksLikeQuotaPercent(v)`: a percentage-shaped value (finite, in
`(0, 1]` or `(0, 100]`). -/
def looksLikeQuotaPercent (v : String) : Bool :=
  let s := strTrim v
  if s = "" then false
  else
    match jsNumberOfCleaned (cleanNumChars s) with
    | none => false
    | some n => (decide (0 < n) && decide (n ≤ 1)) || (decide (0 < n) && decide (n ≤ 100))

/-- `hasExplicitQuotaShareEvidence({limitsRows, policyRows})`: some cell of
some row either contains the explicit phrase, or sits under a
quota/share/co-insurance-named column and is percentage-shaped or contains
a share keyword. -/
def hasExplicitQuotaShareEvidence (limitsRows policyRows : List Row) : Bool :=
  [limitsRows, policyRows].any (fun rows =>
    rows.any (fun r =>
      r.any (fun kv =>
        let sv := strTrim kv.2
        (decide (sv ≠ "") && explicitQuotaPhrase sv) ||
          (keyHint kv.1 && decide (sv ≠ "") &&
            (looksLikeQuotaPercent sv || valueHint sv)))))

/- ================================
   Calendar arithmetic (`Date.UTC(y, 0, 1)` and friends, proleptic
   Gregorian, days since 1970-01-01)
================================ -/

/-- Leap years strictly before year `y` (relative count; only differences
are used). -/
def leapsBefore (y : ℤ) : ℤ := (y - 1).fdiv 4 - (y - 1).fdiv 100 + (y - 1).fdiv 400

/-- Day number of Jan 1 of year `y` (days since 1970-01-01, negative before
1970). -/
def startOfYearDays (y : ℤ) : ℤ := 365 * (y - 1970) + (leapsBefore y - leapsBefore 1970)

def msPerDay : ℤ := 86400000

/-- `startOfYearUTC(y)` = `Date.UTC(y, 0, 1)` in ms. -/
def startOfYearUTCms (y : ℤ) : ℤ := msPerDay * startOfYearDays y

/-- `startOfNextYearUTC(y)` = `Date.UTC(y + 1, 0, 1)` in ms. -/
def startOfNextYearUTCms (y : ℤ) : ℤ := startOfYearUTCms (y + 1)

/-- `endOfYearUTC(y)` = `Date.UTC(y, 11, 31, 23, 59, 59, 999)` in ms
(one ms before the next year starts). -/
def endOfYearUTCms (y : ℤ) : ℤ := startOfYearUTCms (y + 1) - 1

/-- `[a..b]` as a list of integers (empty when `b < a`). -/
def intRange (a b : ℤ) : List ℤ :=
  (List.range (b - a + 1).toNat).map (fun i : ℕ => a + (i : ℤ))

/- ================================
   Engine state and the filter pipeline (`_cache`, `applyFiltersToCache`,
   the exported filter setters and `rebuildChart`)
================================ -/

/-- `_cache.filters`. -/
structure Filters where
  startYear : Option ℤ
  endYear : Option ℤ
  startDate : Option String
  endDate : Option String
  zoomMin : Option ℚ
  zoomMax : Option ℚ
  sirMode : String
  insuranceProgram : String
  policyLimitType : String
  annualized : Bool
  carriers : List String
  carrierGroups : List String
  deriving Repr, DecidableEq

/-- The engine-relevant part of `_cache` (DOM handles and zoom state are
rendering concerns). -/
structure CacheState where
  allSlices : List Slice
  allXLabels : List String
  slices : List Slice
  xLabels : List String
  quotaKeySet : List String
  useYearAxis : Bool
  hiddenLegendCarriers : List String
  hiddenLegendCarrierGroups : List String
  filters : Filters
  deriving Repr, DecidableEq

/-- `x ≤ bound`, where `none` is `+∞` (`Number.POSITIVE_INFINITY`). -/
def leUpper (x : ℤ) : Option ℤ → Bool
  | none => true
  | some v => decide (x ≤ v)

/-- `x ≥ bound`, where `none` is `−∞` (`Number.NEGATIVE_INFINITY`). -/
def geLower (x : ℤ) : Option ℤ → Bool
  | none => true
  | some v => decide (v ≤ x)

/-- The distinct, sorted, non-blank policy limit types of the loaded slices
(the `availableTypes` list of `applyFiltersToCache`, also
`getFilterOptions().policyLimitTypes`). -/
def availableLimitTypes (allSlices : List Slice) : List String :=
  stSort strLe
    (((allSlices.map (fun s => strTrim s.policyLimitType)).filter (fun t => t ≠ "")).dedup)

/-- The implicit default policy limit type: `"Bodily Injury"` when present
(case-insensitively), otherwise the first available type, otherwise blank. -/
def defaultPolicyLimitType (allSlices : List Slice) : String :=
  let availableTypes := availableLimitTypes allSlices
  let bodilyInjury :=
    (availableTypes.find? (fun t => strLower (strTrim t) = "bodily injury")).getD ""
  jsOrS bodilyInjury (strTrim (availableTypes.headD ""))

/-- `applyFiltersToCache()`, with JS `Date` string parsing
(`parseDateToUTC`) passed in as an explicit function (the engine treats it
as an external primitive). -/
def applyFiltersToCache (parseDate : String → Option ℤ) (st : CacheState) : CacheState :=
  let startYear := st.filters.startYear
  let endYear := st.filters.endYear
  let startDateMs := st.filters.startDate.bind parseDate
  let endDateMs := st.filters.endDate.bind parseDate
  let selectedProgram := strTrim st.filters.insuranceProgram
  let selectedPolicyLimitType :=
    if strTrim st.filters.policyLimitType ≠ "" then strTrim st.filters.policyLimitType
    else defaultPolicyLimitType st.allSlices
  let filters' := { st.filters with policyLimitType := selectedPolicyLimitType }
  let dateFilterActive := startYear.isSome || endYear.isSome ||
    startDateMs.isSome || endDateMs.isSome
  let filterStartMs : Option ℤ :=
    match startDateMs with
    | some d => some d
    | none => startYear.map (fun y => startOfYearUTCms y)
  let filterEndMs : Option ℤ :=
    match endDateMs with
    | some d => some (d + (msPerDay - 1))
    | none => endYear.map (fun y => endOfYearUTCms y)
  let filtered1 :=
    if st.useYearAxis && dateFilterActive then
      st.allSlices.filter (fun s =>
        leUpper s.policyStartMs filterEndMs && geLower s.policyEndMs filterStartMs)
    else st.allSlices
  let filtered2 :=
    if selectedProgram ≠ "" then
      filtered1.filter (fun s => strTrim s.insuranceProgram = selectedProgram)
    else filtered1
  let filteredSlices :=
    if selectedPolicyLimitType ≠ "" then
      filtered2.filter (fun s => strTrim s.policyLimitType = selectedPolicyLimitType)
    else filtered2
  let filteredXLabels :=
    if st.useYearAxis && !filteredSlices.isEmpty then
      match (filteredSlices.map (fun s => s.policyStartYear)).min?,
          (filteredSlices.map (fun s => s.policyEndYear)).max? with
      | some mn, some mx =>
          if mn ≤ mx then (intRange mn mx).map (fun y => toString y)
          else if startYear.isSome || endYear.isSome then [] else st.allXLabels
      | _, _ => if startYear.isSome || endYear.isSome then [] else st.allXLabels
    else if st.useYearAxis && dateFilterActive then []
    else st.allXLabels
  { st with slices := filteredSlices, xLabels := filteredXLabels, filters := filters' }

/-- The exported filter setters that precede a synchronous re-render
(`setDateRange` is omitted: it feeds arbitrary strings through the JS
`Date` parser before storing them; `setYearRange` covers the same window
mechanism with already-parsed bounds). -/
inductive FilterOp where
  | setInsuranceProgramFilter (v : String)
  | resetInsuranceProgramFilter
  | setPolicyLimitTypeFilter (v : String)
  | resetPolicyLimitTypeFilter
  | setAnnualizedMode (enabled : Bool)
  | setEntityFilters (carriers carrierGroups : List String)
  | resetEntityFilters
  | setYearRange (startYear endYear : Option ℤ)
  | resetYearRange
  | resetDateRange
  deriving Repr, DecidableEq

/-- Apply one filter setter: mutate `_cache.filters`, then
`applyFiltersToCache()` (each setter then calls `rebuildChart()`, which
reads `_cache.slices` and the untouched `_cache.quotaKeySet`). -/
def applyFilterOp (parseDate : String → Option ℤ) (op : FilterOp) (st : CacheState) :
    CacheState :=
  let st' :=
    match op with
    | .setInsuranceProgramFilter v =>
        { st with filters := { st.filters with insuranceProgram := strTrim v } }
    | .resetInsuranceProgramFilter =>
        { st with filters := { st.filters with insuranceProgram := "" } }
    | .setPolicyLimitTypeFilter v =>
        { st with filters := { st.filters with policyLimitType := strTrim v } }
    | .resetPolicyLimitTypeFilter =>
        { st with filters := { st.filters with policyLimitType := "" } }
    | .setAnnualizedMode enabled =>
        { st with filters := { st.filters with annualized := enabled } }
    | .setEntityFilters carriers carrierGroups =>
        { st with filters := { st.filters with
            carriers := normalizeStringList carriers
            carrierGroups := normalizeStringList carrierGroups } }
    | .resetEntityFilters =>
        { st with filters := { st.filters with carriers := [], carrierGroups := [] } }
    | .setYearRange sy ey =>
        let swap : Bool := match sy, ey with
          | some a, some b => decide (b < a)
          | _, _ => false
        { st with filters := { st.filters with
            startYear := if swap then ey else sy
            endYear := if swap then sy else ey
            startDate := none
            endDate := none } }
    | .resetYearRange =>
        { st with filters := { st.filters with
            startYear := none, endYear := none, startDate := none, endDate := none } }
    | .resetDateRange =>
        { st with filters := { st.filters with
            startYear := none, endYear := none, startDate := none, endDate := none } }
  applyFiltersToCache parseDate st'

/-- `getSelectionSets()` from the cached filters. -/
def selectionOf (st : CacheState) : Selection :=
  { carriers := normalizeStringList st.filters.carriers
    carrierGroups := normalizeStringList st.filters.carrierGroups }

/-- `rebuildChart()`'s dataset recomputation: `buildDatasetsForView` on the
currently filtered slices with the cached (load-time) quota key set. -/
def renderDatasets (st : CacheState) (view : String) : List (String × List Point) :=
  buildDatasetsForViewYear st.slices view st.quotaKeySet (selectionOf st)
    st.hiddenLegendCarriers st.hiddenLegendCarrierGroups st.filters.annualized

/-- The state built by `renderCoverageChart` after data load: quota keys
from the *unfiltered* slice set (gated on explicit quota evidence), default
filters, the first-render default limit type, then `applyFiltersToCache`. -/
def loadState (parseDate : String → Option ℤ) (limitsRows policyRows : List Row)
    (builtSlices : List Slice) (builtXLabels : List String) : CacheState :=
  let quotaEnabled := hasExplicitQuotaShareEvidence limitsRows policyRows
  let quotaKeySet := if quotaEnabled then buildQuotaKeySet builtSlices else []
  let st : CacheState :=
    { allSlices := builtSlices
      allXLabels := builtXLabels
      slices := builtSlices
      xLabels := builtXLabels
      quotaKeySet := quotaKeySet
      useYearAxis := true
      hiddenLegendCarriers := []
      hiddenLegendCarrierGroups := []
      filters :=
        { startYear := none, endYear := none, startDate := none, endDate := none
          zoomMin := none, zoomMax := none, sirMode := "off"
          insuranceProgram := "", policyLimitType := "", annualized := false
          carriers := [], carrierGroups := [] } }
  let st :=
    if strTrim st.filters.policyLimitType = "" then
      { st with filters :=
        { st.filters with policyLimitType := defaultPolicyLimitType st.allSlices } }
    else st
  applyFiltersToCache parseDate st

/- ================================
   Concrete inputs for C1 (quota symmetry under filtering)
================================ -/

/-- A neutral slice record used as the base of concrete examples. -/
def baseSlice : Slice :=
  { PolicyID := "", policy_no := "", carrier := "", carrierGroup := ""
    insuranceProgram := "", insuranceProgramId := "", namedInsuredId := ""
    policyLimitType := "", policyLimitTypeId := "", availability := "Available"
    attach := 0, sliceLimit := 0, xStartValue := 0, xEndValue := 0
    policyStartMs := 0, policyEndMs := 0, policyStartYear := 0, policyEndYear := 0
    yearOverlapStartMs := none, yearOverlapEndMs := none
    sirPerOcc := 0, sirAggregate := 0, year := none, x := "" }

/-- Policy P1: Jan 1 1985 – Dec 31 1985, limit 1,000,000, attach 0
(its single year slice). -/
def sliceC1P1 : Slice :=
  { baseSlice with
    PolicyID := "P1", policy_no := "A-1", carrier := "Acme", carrierGroup := "G1"
    attach := 0, sliceLimit := 1000000
    xStartValue := mkRat 3969 2, xEndValue := mkRat 3971 2
    policyStartMs := startOfYearUTCms 1985, policyEndMs := endOfYearUTCms 1985
    policyStartYear := 1985, policyEndYear := 1985
    yearOverlapStartMs := some (startOfYearUTCms 1985)
    yearOverlapEndMs := some (endOfYearUTCms 1985)
    year := some 1985, x := "1985" }

/-- Policy P2: Jul 1 1984 – Dec 31 1985, limit 1,000,000, attach 0 — its
1984 year slice (Jul 1 1984 is day 182 of the leap year 1984). -/
def sliceC1P2a : Slice :=
  { baseSlice with
    PolicyID := "P2", policy_no := "B-1", carrier := "Beta", carrierGroup := "G2"
    attach := 0, sliceLimit := 1000000
    xStartValue := qAdd (mkRat 3967 2) (mkRat 182 366), xEndValue := mkRat 3969 2
    policyStartMs := startOfYearUTCms 1984 + 182 * msPerDay
    policyEndMs := endOfYearUTCms 1985
    policyStartYear := 1984, policyEndYear := 1985
    yearOverlapStartMs := some (startOfYearUTCms 1984 + 182 * msPerDay)
    yearOverlapEndMs := some (endOfYearUTCms 1984)
    year := some 1984, x := "1984" }

/-- Policy P2's 1985 year slice: full-year overlap, hence the same quota
group key as P1's slice. -/
def sliceC1P2b : Slice :=
  { baseSlice with
    PolicyID := "P2", policy_no := "B-1", carrier := "Beta", carrierGroup := "G2"
    attach := 0, sliceLimit := 1000000
    xStartValue := mkRat 3969 2, xEndValue := mkRat 3971 2
    policyStartMs := startOfYearUTCms 1984 + 182 * msPerDay
    policyEndMs := endOfYearUTCms 1985
    policyStartYear := 1984, policyEndYear := 1985
    yearOverlapStartMs := some (startOfYearUTCms 1985)
    yearOverlapEndMs := some (endOfYearUTCms 1985)
    year := some 1985, x := "1985" }

def slicesC1 : List Slice := [sliceC1P1, sliceC1P2a, sliceC1P2b]

/-- A policy row carrying explicit quota-share evidence, so the evidence
gate enables quota detection at load. -/
def policyRowsC1 : List Row := [[("PolicyID", "P1"), ("PolicyNotes", "quota share 50%")]]

def limitsRowsC1 : List Row := [[("PolicyID", "P1"), ("LayerPerOccLimit", "1000000")]]

/-- The shared quota key of P1's and P2's 1985 slices. -/
def quotaKeyC1 : String := quotaGroupKeyOf sliceC1P2b

/-- The engine state after load and a `setYearRange(1984, 1984)` filter
change: P1's slice is filtered out (its span misses 1984), both P2 slices
survive. -/
def stateC1 : CacheState :=
  applyFilterOp (fun _ => none) (.setYearRange (some 1984) (some 1984))
    (loadState (fun _ => none) limitsRowsC1 policyRowsC1 slicesC1 ["1984", "1985"])

/-- C1 (counterexample). After the `setYearRange(1984, 1984)` filter
change, the quota key shared by P1 and P2 has exactly one distinct policy
id among the currently filtered slices, yet the engine still emits its
layer with `isQuotaShare = true` (and a non-empty point list): quota-share
status is inherited from the load-time computation, not recomputed from
the filtered slice set, so the claim as stated is false. -/
theorem quota_symmetry_filtered_counterexample :
    ((((stateC1.slices.filter (fun s => quotaGroupKeyOf s == quotaKeyC1)).map
        (fun s => s.PolicyID)).dedup).length = 1)
    ∧ ((renderDatasets stateC1 "carrier").flatMap Prod.snd).filter
        (fun p => p.quotaGroupKey == quotaKeyC1) ≠ []
    ∧ (((renderDatasets stateC1 "carrier").flatMap Prod.snd).filter
        (fun p => p.quotaGroupKey == quotaKeyC1)).all (fun p => p.isQuotaShare) = true := by
  refine ⟨by decide, by decide, by decide⟩

theorem contains_iff_mem (l : List String) (a : String) : l.contains a = true ↔ a ∈ l := by
  induction l with
  | nil => simp
  | cons b bs ih => simp [List.contains_cons, ih]

/-- Every emitted point carries `isQuotaShare = true` exactly when its
(bucket) quota key is non-empty and belongs to the quota key set handed to
the builder. -/
theorem point_isQuotaShare_iff (slices : List Slice) (view : String)
    (qset : List String) (sel : Selection) (hc hg : List String) (ann : Bool)
    (ds : String × List Point)
    (hds : ds ∈ buildDatasetsForViewYear slices view qset sel hc hg ann)
    (p : Point) (hp : p ∈ ds.2) :
    p.isQuotaShare = true ↔ p.quotaGroupKey ≠ "" ∧ p.quotaGroupKey ∈ qset := by
  unfold buildDatasetsForViewYear at hds
  rcases List.mem_map.mp hds with ⟨g, _, rfl⟩
  rcases List.mem_map.mp ((stSort_mem _ _ p).mp hp) with ⟨e, _, rfl⟩
  show (decide (e.quotaGroupKey ≠ "") && qset.contains e.quotaGroupKey) = true ↔ _
  rw [Bool.and_eq_true, decide_eq_true_eq, contains_iff_mem]
  exact Iff.rfl

theorem applyFiltersToCache_quotaKeySet (parseDate : String → Option ℤ)
    (st : CacheState) : (applyFiltersToCache parseDate st).quotaKeySet = st.quotaKeySet := rfl

theorem applyFilterOp_quotaKeySet (parseDate : String → Option ℤ) (op : FilterOp)
    (st : CacheState) : (applyFilterOp parseDate op st).quotaKeySet = st.quotaKeySet := by
  cases op <;> rfl

theorem loadState_quotaKeySet (parseDate : String → Option ℤ)
    (limitsRows policyRows : List Row) (builtSlices : List Slice)
    (builtXLabels : List String) :
    (loadState parseDate limitsRows policyRows builtSlices builtXLabels).quotaKeySet
      = (if hasExplicitQuotaShareEvidence limitsRows policyRows
          then buildQuotaKeySet builtSlices else []) := by
  unfold loadState
  rw [applyFiltersToCache_quotaKeySet]
  split <;> rfl

/-- C1 (amended). Quota-share status is *not* recomputed from the filtered
slice set: on every render pass after a filter change, a point is flagged
`isQuotaShare` exactly when its quota key belongs to the quota key set
computed once at load time from the full unfiltered slice set (gated on
explicit quota evidence) — that set contains exactly the keys shared by two
distinct policy ids among the load-time slices.  Hiding one of two
participants by filtering therefore does not demote the surviving layer. -/
theorem quota_flag_inherited_from_load (parseDate : String → Option ℤ)
    (limitsRows policyRows : List Row) (builtSlices : List Slice)
    (builtXLabels : List String) (op : FilterOp) (view : String)
    (ds : String × List Point) (p : Point)
    (hds : ds ∈ renderDatasets
      (applyFilterOp parseDate op
        (loadState parseDate limitsRows policyRows builtSlices builtXLabels)) view)
    (hp : p ∈ ds.2) :
    (p.isQuotaShare = true ↔
      p.quotaGroupKey ≠ "" ∧
        p.quotaGroupKey ∈ (if hasExplicitQuotaShareEvidence limitsRows policyRows
          then buildQuotaKeySet builtSlices else []))
    ∧ (∀ k, k ∈ buildQuotaKeySet builtSlices ↔
        ∃ s1 ∈ builtSlices, ∃ s2 ∈ builtSlices,
          quotaGroupKeyOf s1 = k ∧ quotaGroupKeyOf s2 = k ∧
            s1.PolicyID ≠ s2.PolicyID) := by
  constructor
  · have h := point_isQuotaShare_iff _ view _ _ _ _ _ ds hds p hp
    rwa [applyFilterOp_quotaKeySet, loadState_quotaKeySet] at h
  · intro k
    exact mem_buildQuotaKeySet_iff builtSlices k

/-- A default point used to select concrete elements in witnesses. -/
def defPoint : Point :=
  { x := 0, xStart := 0, xEnd := 0, yearLabel := "", attach := 0, top := 0
    sumLimit := 0, participants := [], group := "", annualized := false
    isQuotaShare := false, quotaGroupKey := "", isHighlighted := false }

/-- Witness for the amended C1 theorem: at the concrete load + filter-change
scenario, the first point of the first dataset is quota-flagged and its key
is in the load-time quota key set. -/
theorem quota_flag_inherited_from_load_witness :
    ((((renderDatasets stateC1 "carrier").headD ("", [])).2.headD defPoint).isQuotaShare = true ↔
      (((renderDatasets stateC1 "carrier").headD ("", [])).2.headD defPoint).quotaGroupKey ≠ "" ∧
        (((renderDatasets stateC1 "carrier").headD ("", [])).2.headD defPoint).quotaGroupKey
          ∈ (if hasExplicitQuotaShareEvidence limitsRowsC1 policyRowsC1
              then buildQuotaKeySet slicesC1 else []))
    ∧ (∀ k, k ∈ buildQuotaKeySet slicesC1 ↔
        ∃ s1 ∈ slicesC1, ∃ s2 ∈ slicesC1,
          quotaGroupKeyOf s1 = k ∧ quotaGroupKeyOf s2 = k ∧
            s1.PolicyID ≠ s2.PolicyID) := by
  exact quota_flag_inherited_from_load (fun _ => none) limitsRowsC1 policyRowsC1
    slicesC1 ["1984", "1985"] (.setYearRange (some 1984) (some 1984)) "carrier"
    ((renderDatasets stateC1 "carrier").headD ("", []))
    ((((renderDatasets stateC1 "carrier").headD ("", []))).2.headD defPoint)
    (by decide) (by decide)

/-- C5. Quota evidence gate: when no input row shows explicit quota-share /
co-insurance evidence, the load-time quota key set is empty and every point
of the first render carries `isQuotaShare = false` — for any slice set,
including ones where two or more distinct policies share the same
attachment point and quota group key. -/
theorem quota_evidence_gate (parseDate : String → Option ℤ)
    (limitsRows policyRows : List Row) (builtSlices : List Slice)
    (builtXLabels : List String) (view : String)
    (hev : hasExplicitQuotaShareEvidence limitsRows policyRows = false)
    (ds : String × List Point) (p : Point)
    (hds : ds ∈ renderDatasets
      (loadState parseDate limitsRows policyRows builtSlices builtXLabels) view)
    (hp : p ∈ ds.2) :
    (loadState parseDate limitsRows policyRows builtSlices builtXLabels).quotaKeySet = []
    ∧ p.isQuotaShare = false := by
  have hq : (loadState parseDate limitsRows policyRows builtSlices builtXLabels).quotaKeySet
      = [] := by
    rw [loadState_quotaKeySet, hev]
    simp
  refine ⟨hq, ?_⟩
  have h := point_isQuotaShare_iff _ view _ _ _ _ _ ds hds p hp
  rw [hq] at h
  simp only [List.not_mem_nil, and_false, iff_false] at h
  exact Bool.not_eq_true _ ▸ h

/-- Slices for the C5 witness: two distinct policies share attachment 0 and
the same quota group key, but the dataset carries no quota evidence. -/
def sliceC5P2 : Slice :=
  { sliceC1P1 with PolicyID := "P2", policy_no := "B-7", carrier := "Beta" }

def slicesC5 : List Slice := [sliceC1P1, sliceC5P2]

def limitsRowsC5 : List Row := [[("PolicyID", "P1"), ("LayerPerOccLimit", "1000000")]]

def policyRowsC5 : List Row :=
  [[("PolicyID", "P1"), ("Status", "Active"), ("Carrier", "Acme")],
   [("PolicyID", "P2"), ("Status", "Active"), ("Carrier", "Beta")]]

def stateC5 : CacheState :=
  loadState (fun _ => none) limitsRowsC5 policyRowsC5 slicesC5 ["1985"]

/-- Witness for C5: the concrete dataset has two distinct policies with the
same quota key, no quota evidence, and its first rendered point is not
quota-flagged. -/
theorem quota_evidence_gate_witness :
    (hasExplicitQuotaShareEvidence limitsRowsC5 policyRowsC5 = false
      ∧ quotaGroupKeyOf sliceC1P1 = quotaGroupKeyOf sliceC5P2
      ∧ sliceC1P1.PolicyID ≠ sliceC5P2.PolicyID)
    ∧ (stateC5.quotaKeySet = []
      ∧ (((renderDatasets stateC5 "carrier").headD ("", [])).2.headD defPoint).isQuotaShare
          = false) := by
  refine ⟨by decide, ?_⟩
  exact quota_evidence_gate (fun _ => none) limitsRowsC5 policyRowsC5 slicesC5 ["1985"]
    "carrier" (by decide)
    ((renderDatasets stateC5 "carrier").headD ("", []))
    ((((renderDatasets stateC5 "carrier").headD ("", []))).2.headD defPoint)
    (by decide) (by decide)

/-- The empty entity-filter selection. -/
def selEmpty : Selection := { carriers := [], carrierGroups := [] }

/- ================================
   Concrete inputs for C8 (non-quota layers at one attachment)
================================ -/

/-- P1: limit 1,000,000, attach 0, calendar year 1985, carrier Acme. -/
def sliceC8a : Slice :=
  { sliceC1P1 with PolicyID := "P1", carrier := "Acme", sliceLimit := 1000000 }

/-- P2: a distinct policy, limit 2,000,000, same carrier, same attachment,
same span, not quota share (the quota key set is empty). -/
def sliceC8b : Slice :=
  { sliceC1P1 with
    PolicyID := "P2"
    policy_no := "B-9"
    carrier := "Acme"
    sliceLimit := 2000000 }

def slicesC8 : List Slice := [sliceC8a, sliceC8b]

def outC8 : List (String × List Point) :=
  buildDatasetsForViewYear slicesC8 "carrier" [] selEmpty [] [] false

/-- C8 (code evaluated at the failing input). Two distinct non-quota
policies of the same carrier at the same attachment and span are emitted as
ONE drawable layer whose height is the sum of their limits (one point,
`sumLimit = 3,000,000`, `top = 3,000,000`, both policies in its participant
list) — not as two separate overlapping layers as the claim and the
source's own comment (`layerMap`: "Non-quota: one layer per policy")
state. -/
theorem nonquota_same_group_layers_summed :
    ((outC8.flatMap Prod.snd).length = 1)
    ∧ ((outC8.flatMap Prod.snd).headD defPoint).group = "Acme"
    ∧ ((outC8.flatMap Prod.snd).headD defPoint).attach = 0
    ∧ ((outC8.flatMap Prod.snd).headD defPoint).sumLimit = 3000000
    ∧ ((outC8.flatMap Prod.snd).headD defPoint).top = 3000000
    ∧ (((outC8.flatMap Prod.snd).headD defPoint).participants.map
        (fun p => p.pid)) = ["P2", "P1"]
    ∧ ((outC8.flatMap Prod.snd).headD defPoint).isQuotaShare = false := by
  refine ⟨by decide, by decide, by decide, by decide, by decide, by decide, by decide⟩

/- ================================
   Concrete inputs for C2 (partition granularity)
================================ -/

/-- Quota group in program A: policies P1, P2 at attach 0, year 1985. -/
def sliceC2a : Slice := { sliceC1P1 with PolicyID := "P1", insuranceProgramId := "A" }

def sliceC2b : Slice :=
  { sliceC1P1 with PolicyID := "P2", carrier := "Beta", insuranceProgramId := "A" }

/-- Quota group in program B: policies P3, P4 at the same attach 0 and the
same year. -/
def sliceC2c : Slice :=
  { sliceC1P1 with PolicyID := "P3", carrier := "Ceres", insuranceProgramId := "B" }

def sliceC2d : Slice :=
  { sliceC1P1 with PolicyID := "P4", carrier := "Delta", insuranceProgramId := "B" }

def slicesC2 : List Slice := [sliceC2a, sliceC2b, sliceC2c, sliceC2d]

def outC2 : List (String × List Point) :=
  buildDatasetsForViewYear slicesC2 "carrier" (buildQuotaKeySet slicesC2) selEmpty [] [] false

def ptsC2 : List Point :=
  (outC2.flatMap Prod.snd).filter (fun p => p.group == "Quota share" && p.attach == 0)

/-- C2 (counterexample). In the fixed (displayGroup, attachmentPoint)
bucket ("Quota share", 0) the engine emits two distinct segments with
overlapping half-open time spans (two quota groups at the same attachment):
the partition property at (displayGroup, attachmentPoint) granularity is
false.  The code partitions per (displayGroup, attachmentPoint,
quotaGroupKey) bucket instead. -/
theorem partition_per_group_attach_counterexample :
    (ptsC2.length = 2)
    ∧ (ptsC2.getD 0 defPoint ≠ ptsC2.getD 1 defPoint)
    ∧ ((ptsC2.getD 0 defPoint).xStart < (ptsC2.getD 1 defPoint).xEnd)
    ∧ ((ptsC2.getD 1 defPoint).xStart < (ptsC2.getD 0 defPoint).xEnd)
    ∧ ((ptsC2.getD 0 defPoint).xStart < (ptsC2.getD 0 defPoint).xEnd)
    ∧ ((ptsC2.getD 1 defPoint).xStart < (ptsC2.getD 1 defPoint).xEnd) := by
  refine ⟨by decide, by decide, by decide, by decide, by decide, by decide⟩

/- ================================
   C4: merge idempotence of the segmentation engine
================================ -/

theorem mergeInto_fields (cur s : Seg) :
    (mergeInto cur s).segStart = cur.segStart
    ∧ (mergeInto cur s).signature = cur.signature
    ∧ (mergeInto cur s).segLimit = cur.segLimit := ⟨rfl, rfl, rfl⟩

theorem mergeAux_head (cur : Seg) (l : List Seg) :
    ∃ x xs, mergeAux cur l = x :: xs ∧ x.segStart = cur.segStart
      ∧ x.signature = cur.signature ∧ x.segLimit = cur.segLimit := by
  induction l generalizing cur with
  | nil => exact ⟨cur, [], rfl, rfl, rfl, rfl⟩
  | cons s rest ih =>
      by_cases h : canMerge cur s = true
      · obtain ⟨x, xs, hx, h1, h2, h3⟩ := ih (mergeInto cur s)
        exact ⟨x, xs, by rw [mergeAux, if_pos h]; exact hx, h1, h2, h3⟩
      · exact ⟨cur, mergeAux s rest, by rw [mergeAux, if_neg h], rfl, rfl, rfl⟩

/-- `canMerge` reads only the start, signature and summed limit of its
second argument. -/
theorem canMerge_congr (cur x s : Seg) (h1 : x.segStart = s.segStart)
    (h2 : x.signature = s.signature) (h3 : x.segLimit = s.segLimit) :
    canMerge cur x = canMerge cur s := by
  unfold canMerge
  rw [h1, h2, h3]

theorem mergeAux_reduced (cur : Seg) (l : List Seg) :
    List.Chain' (fun a b => canMerge a b = false) (mergeAux cur l) := by
  induction l generalizing cur with
  | nil => simp [mergeAux]
  | cons s rest ih =>
      by_cases h : canMerge cur s = true
      · rw [mergeAux, if_pos h]
        exact ih (mergeInto cur s)
      · rw [mergeAux, if_neg h]
        obtain ⟨x, xs, hx, h1, h2, h3⟩ := mergeAux_head s rest
        refine List.chain'_cons'.mpr ⟨?_, ih s⟩
        intro b hb
        rw [hx] at hb
        simp only [List.head?_cons, Option.mem_def, Option.some_inj] at hb
        subst hb
        rw [canMerge_congr cur x s h1 h2 h3]
        exact Bool.not_eq_true _ ▸ h

theorem mergeAux_of_reduced (cur : Seg) (l : List Seg)
    (h : List.Chain' (fun a b => canMerge a b = false) (cur :: l)) :
    mergeAux cur l = cur :: l := by
  induction l generalizing cur with
  | nil => rfl
  | cons s rest ih =>
      have hcs : canMerge cur s = false := (List.chain'_cons.mp h).1
      rw [mergeAux, if_neg (by rw [hcs]; exact Bool.false_ne_true)]
      rw [ih s (List.chain'_cons.mp h).2]

/-- C4. Merge idempotence and determinism: the merge pass of the
Segmentation Engine (non-annualized mode) — which merges adjacent raw
segments exactly when they are time-contiguous within `eps`, carry an
identical order-independent participant signature and have summed limits
equal within `eps` — is a pure function that is idempotent: re-running it
on an already-merged segment list changes nothing, so running the engine
twice on raw input yields the same final result as running it once. -/
theorem mergeSegments_idempotent (l : List Seg) :
    mergeSegments (mergeSegments l) = mergeSegments l := by
  cases l with
  | nil => rfl
  | cons s rest =>
      show mergeSegments (mergeAux s rest) = mergeAux s rest
      have hred := mergeAux_reduced s rest
      obtain ⟨x, xs, hx, _, _, _⟩ := mergeAux_head s rest
      rw [hx] at hred ⊢
      show mergeAux x xs = x :: xs
      exact mergeAux_of_reduced x xs hred

/- ================================
   C2/C3: partition and conservation of the boundary sweep
================================ -/

/-- The sum of `sliceLimit` over exactly the bucket rows whose half-open
span contains `t` (the claim's reference quantity). -/
def coveringSum (rows : List BucketRow) (t : ℚ) : ℚ :=
  ((rows.filter (fun r => decide (r.xStartValue ≤ t) && decide (t < r.xEndValue))).map
    (fun r => r.limit)).sum

theorem boundsOf_sorted (rows : List BucketRow) : (boundsOf rows).Sorted (· ≤ ·) :=
  stSort_sorted _ (fun _ _ => rfl) _

theorem boundsOf_nodup (rows : List BucketRow) : (boundsOf rows).Nodup :=
  ((stSort_perm _ _).nodup_iff).mpr (List.nodup_dedup _)

theorem boundsOf_pairwise_lt (rows : List BucketRow) :
    List.Pairwise (· < ·) (boundsOf rows) := by
  have h1 := boundsOf_sorted rows
  have h2 := boundsOf_nodup rows
  exact (h1.and h2).imp (fun h => lt_of_le_of_ne h.1 h.2)

theorem mem_boundsOf (rows : List BucketRow) (x : ℚ) :
    x ∈ boundsOf rows ↔ ∃ r ∈ rows, x = r.xStartValue ∨ x = r.xEndValue := by
  rw [boundsOf, stSort_mem, List.mem_dedup]
  constructor
  · intro h
    obtain ⟨r, hr, hx⟩ := List.mem_flatMap.mp h
    simp only [List.mem_cons, List.not_mem_nil, or_false] at hx
    exact ⟨r, hr, hx⟩
  · rintro ⟨r, hr, h | h⟩
    · exact List.mem_flatMap.mpr ⟨r, hr, by rw [h]; simp⟩
    · exact List.mem_flatMap.mpr ⟨r, hr, by rw [h]; simp⟩

theorem xs_mem_boundsOf (rows : List BucketRow) (r : BucketRow) (hr : r ∈ rows) :
    r.xStartValue ∈ boundsOf rows := (mem_boundsOf rows _).mpr ⟨r, hr, Or.inl rfl⟩

theorem xe_mem_boundsOf (rows : List BucketRow) (r : BucketRow) (hr : r ∈ rows) :
    r.xEndValue ∈ boundsOf rows := (mem_boundsOf rows _).mpr ⟨r, hr, Or.inr rfl⟩

theorem adjPairs_mem (bs : List ℚ) (ab : ℚ × ℚ) (h : ab ∈ adjPairs bs) :
    ab.1 ∈ bs ∧ ab.2 ∈ bs := by
  induction bs with
  | nil => cases h
  | cons a rest ih =>
      cases rest with
      | nil => cases h
      | cons b rest' =>
          rw [adjPairs] at h
          rcases List.mem_cons.mp h with rfl | h
          · exact ⟨List.mem_cons_self _ _, List.mem_cons_of_mem _ (List.mem_cons_self _ _)⟩
          · obtain ⟨h1, h2⟩ := ih h
            exact ⟨List.mem_cons_of_mem _ h1, List.mem_cons_of_mem _ h2⟩

/-- On a strictly sorted boundary list, each adjacent pair is a gap: every
boundary strictly below the pair's right end is at most its left end, and
every boundary strictly above the left end is at least the right end. -/
theorem adjPairs_gap (bs : List ℚ) (hbs : List.Pairwise (· < ·) bs) (ab : ℚ × ℚ)
    (hab : ab ∈ adjPairs bs) (x : ℚ) (hx : x ∈ bs) :
    (x < ab.2 → x ≤ ab.1) ∧ (ab.1 < x → ab.2 ≤ x) := by
  induction bs with
  | nil => cases hab
  | cons a rest ih =>
      cases rest with
      | nil => cases hab
      | cons b rest' =>
          rw [adjPairs] at hab
          have ha := List.pairwise_cons.mp hbs
          rcases List.mem_cons.mp hab with rfl | hab'
          · rcases List.mem_cons.mp hx with rfl | hx'
            · exact ⟨fun _ => le_refl _, fun h => absurd h (lt_irrefl _)⟩
            · rcases List.mem_cons.mp hx' with rfl | hx''
              · exact ⟨fun h => absurd h (lt_irrefl _), fun _ => le_refl _⟩
              · have hbx : b < x := (List.pairwise_cons.mp ha.2).1 x hx''
                exact ⟨fun h => absurd (hbx.trans h) (lt_irrefl _),
                  fun _ => le_of_lt hbx⟩
          · have h1 := adjPairs_mem _ _ hab'
            have hax1 : a < ab.1 := ha.1 _ h1.1
            rcases List.mem_cons.mp hx with rfl | hx' 
            · exact ⟨fun _ => le_of_lt hax1, fun h => absurd (h.trans hax1) (lt_irrefl _)⟩
            · exact ih ha.2 hab' hx'

/-- Any point lying between two boundaries is inside some adjacent pair. -/
theorem adjPairs_cover (bs : List ℚ) (hbs : List.Pairwise (· < ·) bs) (x y t : ℚ)
    (hx : x ∈ bs) (hy : y ∈ bs) (hxt : x ≤ t) (hty : t < y) :
    ∃ ab ∈ adjPairs bs, ab.1 ≤ t ∧ t < ab.2 := by
  induction bs generalizing x with
  | nil => cases hx
  | cons a rest ih =>
      cases rest with
      | nil =>
          rcases List.mem_cons.mp hx with rfl | h
          · rcases List.mem_cons.mp hy with rfl | h'
            · exact absurd (hxt.trans_lt hty) (lt_irrefl _)
            · cases h'
          · cases h
      | cons b rest' =>
          have ha := List.pairwise_cons.mp hbs
          by_cases htb : t < b
          · have hat : a ≤ t := by
              rcases List.mem_cons.mp hx with rfl | hx'
              · exact hxt
              · exact le_trans (le_of_lt (ha.1 _ hx')) hxt
            exact ⟨(a, b), by rw [adjPairs]; exact List.mem_cons_self _ _, hat, htb⟩
          · push_neg at htb
            have hy' : y ∈ b :: rest' := by
              rcases List.mem_cons.mp hy with rfl | hy'
              · exact absurd (ha.1 b (List.mem_cons_self _ _))
                  (not_lt.mpr (le_of_lt (lt_of_le_of_lt htb hty)))
              · exact hy'
            have ihspec : ∀ (x' : ℚ), x' ∈ b :: rest' → x' ≤ t →
                ∃ ab ∈ adjPairs (b :: rest'), ab.1 ≤ t ∧ t < ab.2 := by
              intro x' hx' hxt'
              exact ih ha.2 x' hx' hy' hxt'
            obtain ⟨ab, hab, h1, h2⟩ := ihspec b (List.mem_cons_self _ _) htb
            exact ⟨ab, by rw [adjPairs]; exact List.mem_cons_of_mem _ hab, h1, h2⟩

/-- Adjacent pairs are in left-to-right order: each pair ends no later than
any later pair starts. -/
theorem adjPairs_ordered (bs : List ℚ) (hbs : List.Pairwise (· < ·) bs) :
    List.Pairwise (fun ab cd => ab.2 ≤ cd.1) (adjPairs bs) := by
  induction bs with
  | nil => exact List.Pairwise.nil
  | cons a rest ih =>
      cases rest with
      | nil => exact List.Pairwise.nil
      | cons b rest' =>
          have ha := List.pairwise_cons.mp hbs
          rw [adjPairs]
          refine List.pairwise_cons.mpr ⟨?_, ih ha.2⟩
          intro cd hcd
          have h := adjPairs_mem _ _ hcd
          rcases List.mem_cons.mp h.1 with heq | hmem
          · exact le_of_eq heq.symm
          · exact le_of_lt ((List.pairwise_cons.mp ha.2).1 _ hmem)

theorem adjPairs_lt (bs : List ℚ) (hbs : List.Pairwise (· < ·) bs) (ab : ℚ × ℚ)
    (hab : ab ∈ adjPairs bs) : ab.1 < ab.2 := by
  induction bs with
  | nil => cases hab
  | cons a rest ih =>
      cases rest with
      | nil => cases hab
      | cons b rest' =>
          rw [adjPairs] at hab
          have ha := List.pairwise_cons.mp hbs
          rcases List.mem_cons.mp hab with rfl | hab'
          · exact ha.1 _ (List.mem_cons_self _ _)
          · exact ih ha.2 hab'

theorem qSum_pos (l : List ℚ) (hne : l ≠ []) (hpos : ∀ x ∈ l, 0 < x) : 0 < qSum l := by
  rw [qSum_eq]
  cases l with
  | nil => exact absurd rfl hne
  | cons a as =>
      rw [List.sum_cons]
      have h1 : 0 < a := hpos a (List.mem_cons_self _ _)
      have h2 : 0 ≤ as.sum :=
        List.sum_nonneg (fun x hx => le_of_lt (hpos x (List.mem_cons_of_mem _ hx)))
      linarith

theorem qSum_int (l : List ℚ) (h : ∀ x ∈ l, ∃ n : ℤ, x = (n : ℚ)) :
    ∃ n : ℤ, qSum l = (n : ℚ) := by
  rw [qSum_eq]
  induction l with
  | nil => exact ⟨0, by simp⟩
  | cons a as ih =>
      obtain ⟨m, hm⟩ := h a (List.mem_cons_self _ _)
      obtain ⟨n, hn⟩ := ih (fun x hx => h x (List.mem_cons_of_mem _ hx))
      exact ⟨m + n, by rw [List.sum_cons, hm, hn]; push_cast; ring⟩

/-- Characterization of a successful boundary pair. -/
theorem rawSegOfPair_eq_some (sel : Selection) (bq : String) (rows : List BucketRow)
    (ab : ℚ × ℚ) (seg : Seg) (h : rawSegOfPair sel bq rows ab = some seg) :
    ab.1 < ab.2 ∧ seg.segStart = ab.1 ∧ seg.segEnd = ab.2
    ∧ seg.segLimit = qSum ((((rows.filter
        (fun r => r.xStartValue < ab.2 && r.xEndValue > ab.1)).filter
          (fun r => decide (0 < r.limit))).map (fun r => r.limit)))
    ∧ 0 < seg.segLimit := by
  unfold rawSegOfPair at h
  split at h
  · cases h
  · rename_i hlt
    dsimp only at h
    split at h
    · cases h
    · split at h
      · cases h
      · rename_i hpos
        have hseg := (Option.some_inj.mp h).symm
        subst hseg
        push_neg at hlt hpos
        exact ⟨hlt, rfl, rfl, rfl, hpos⟩

/-- A successful pair requires a non-empty active set with positive limits;
conversely, a covered pair always succeeds. -/
theorem rawSegOfPair_isSome (sel : Selection) (bq : String) (rows : List BucketRow)
    (hpos : ∀ r ∈ rows, 0 < r.limit) (ab : ℚ × ℚ) (hlt : ab.1 < ab.2)
    (r : BucketRow) (hr : r ∈ rows) (hr1 : r.xStartValue < ab.2)
    (hr2 : ab.1 < r.xEndValue) :
    ∃ seg, rawSegOfPair sel bq rows ab = some seg := by
  have hmem : r ∈ rows.filter (fun r => r.xStartValue < ab.2 && r.xEndValue > ab.1) :=
    List.mem_filter.mpr ⟨hr, by simp [hr1, hr2]⟩
  have hne : ¬(rows.filter (fun r => r.xStartValue < ab.2 && r.xEndValue > ab.1)).isEmpty := by
    intro hempty
    rw [List.isEmpty_iff] at hempty
    rw [hempty] at hmem
    cases hmem
  have hposmem : r ∈ (rows.filter
      (fun r => r.xStartValue < ab.2 && r.xEndValue > ab.1)).filter
        (fun r => decide (0 < r.limit)) :=
    List.mem_filter.mpr ⟨hmem, by simpa using hpos r hr⟩
  have hsum : 0 < qSum (((rows.filter
      (fun r => r.xStartValue < ab.2 && r.xEndValue > ab.1)).filter
        (fun r => decide (0 < r.limit))).map (fun r => r.limit)) := by
    apply qSum_pos
    · intro hnil
      rw [List.map_eq_nil_iff] at hnil
      rw [hnil] at hposmem
      cases hposmem
    · intro x hx
      obtain ⟨r', hr', hx'⟩ := List.mem_map.mp hx
      have := (List.mem_filter.mp (List.mem_filter.mp hr').1).1
      exact hx' ▸ hpos r' this
  unfold rawSegOfPair
  rw [if_neg (by push_neg; exact hlt)]
  rw [if_neg hne]
  rw [if_neg (by push_neg; exact hsum)]
  exact ⟨_, rfl⟩

/-- A segment's half-open span contains `t`. -/
def spansSeg (s : Seg) (t : ℚ) : Prop := s.segStart ≤ t ∧ t < s.segEnd

/-- Structural facts about a segment of one bucket. -/
def StructSeg (rows : List BucketRow) (s : Seg) : Prop :=
  s.segStart ∈ boundsOf rows ∧ s.segEnd ∈ boundsOf rows ∧ s.segStart < s.segEnd

theorem rawSeg_struct (sel : Selection) (bq : String) (rows : List BucketRow)
    (seg : Seg) (hseg : seg ∈ rawSegmentsOf sel bq rows) : StructSeg rows seg := by
  obtain ⟨ab, hab, hsome⟩ := List.mem_filterMap.mp hseg
  obtain ⟨hlt, hs, he, _, _⟩ := rawSegOfPair_eq_some _ _ _ _ _ hsome
  have hmem := adjPairs_mem _ _ hab
  exact ⟨hs ▸ hmem.1, he ▸ hmem.2, hs ▸ he ▸ hlt⟩

theorem rawSeg_int (sel : Selection) (bq : String) (rows : List BucketRow)
    (hint : ∀ r ∈ rows, ∃ n : ℤ, r.limit = (n : ℚ)) (seg : Seg)
    (hseg : seg ∈ rawSegmentsOf sel bq rows) : ∃ n : ℤ, seg.segLimit = (n : ℚ) := by
  obtain ⟨ab, hab, hsome⟩ := List.mem_filterMap.mp hseg
  obtain ⟨_, _, _, hsum, _⟩ := rawSegOfPair_eq_some _ _ _ _ _ hsome
  rw [hsum]
  apply qSum_int
  intro x hx
  obtain ⟨r, hr, hx'⟩ := List.mem_map.mp hx
  exact hx' ▸ hint r (List.mem_filter.mp (List.mem_filter.mp hr).1).1

theorem rawSeg_conserve (sel : Selection) (bq : String) (rows : List BucketRow)
    (hpos : ∀ r ∈ rows, 0 < r.limit) (seg : Seg)
    (hseg : seg ∈ rawSegmentsOf sel bq rows) (t : ℚ) (hspan : spansSeg seg t) :
    seg.segLimit = coveringSum rows t := by
  obtain ⟨ab, hab, hsome⟩ := List.mem_filterMap.mp hseg
  obtain ⟨hlt, hs, he, hsum, _⟩ := rawSegOfPair_eq_some _ _ _ _ _ hsome
  obtain ⟨h1, h2⟩ := hspan
  rw [hs] at h1
  rw [he] at h2
  have hfil1 : (rows.filter
      (fun r => r.xStartValue < ab.2 && r.xEndValue > ab.1)).filter
        (fun r => decide (0 < r.limit))
      = rows.filter (fun r => r.xStartValue < ab.2 && r.xEndValue > ab.1) := by
    apply List.filter_eq_self.mpr
    intro r hr
    simpa using hpos r (List.mem_filter.mp hr).1
  have hfil2 : rows.filter (fun r => r.xStartValue < ab.2 && r.xEndValue > ab.1)
      = rows.filter (fun r => decide (r.xStartValue ≤ t) && decide (t < r.xEndValue)) := by
    apply List.filter_congr
    intro r hr
    have hgs := adjPairs_gap _ (boundsOf_pairwise_lt rows) ab hab
      r.xStartValue (xs_mem_boundsOf rows r hr)
    have hge := adjPairs_gap _ (boundsOf_pairwise_lt rows) ab hab
      r.xEndValue (xe_mem_boundsOf rows r hr)
    rw [← Bool.decide_and, ← Bool.decide_and]
    apply decide_eq_decide.mpr
    constructor
    · rintro ⟨hx1, hx2⟩
      exact ⟨le_trans (hgs.1 hx1) h1, lt_of_lt_of_le h2 (hge.2 hx2)⟩
    · rintro ⟨hx1, hx2⟩
      exact ⟨lt_of_le_of_lt hx1 h2, lt_of_le_of_lt h1 hx2⟩
  rw [hsum, hfil1, hfil2, qSum_eq, coveringSum]

theorem rawSegs_ordered (sel : Selection) (bq : String) (rows : List BucketRow) :
    List.Pairwise (fun a b => a.segEnd ≤ b.segStart) (rawSegmentsOf sel bq rows) := by
  rw [rawSegmentsOf, List.pairwise_filterMap]
  apply (adjPairs_ordered _ (boundsOf_pairwise_lt rows)).imp
  intro ab cd h x hx y hy
  obtain ⟨_, _, hxe, _, _⟩ := rawSegOfPair_eq_some _ _ _ _ _ (Option.mem_def.mp hx)
  obtain ⟨_, hys, _, _, _⟩ := rawSegOfPair_eq_some _ _ _ _ _ (Option.mem_def.mp hy)
  rw [hxe, hys]
  exact h

theorem coveringSum_pos_mem (rows : List BucketRow) (t : ℚ)
    (h : 0 < coveringSum rows t) :
    ∃ r ∈ rows, r.xStartValue ≤ t ∧ t < r.xEndValue := by
  by_contra hno
  push_neg at hno
  have : rows.filter (fun r => decide (r.xStartValue ≤ t) && decide (t < r.xEndValue)) = [] := by
    rw [List.filter_eq_nil_iff]
    intro r hr
    intro hcon
    simp only [Bool.and_eq_true, decide_eq_true_eq] at hcon
    exact absurd hcon.2 (not_lt.mpr (hno r hr hcon.1))
  rw [coveringSum, this] at h
  simp at h

theorem raw_union (sel : Selection) (bq : String) (rows : List BucketRow)
    (hpos : ∀ r ∈ rows, 0 < r.limit) (t : ℚ) :
    (∃ seg ∈ rawSegmentsOf sel bq rows, spansSeg seg t)
      ↔ (∃ r ∈ rows, r.xStartValue ≤ t ∧ t < r.xEndValue) := by
  constructor
  · rintro ⟨seg, hseg, hspan⟩
    obtain ⟨ab, hab, hsome⟩ := List.mem_filterMap.mp hseg
    obtain ⟨_, _, _, _, hlim⟩ := rawSegOfPair_eq_some _ _ _ _ _ hsome
    have hcons := rawSeg_conserve sel bq rows hpos seg hseg t hspan
    exact coveringSum_pos_mem rows t (hcons ▸ hlim)
  · rintro ⟨r, hr, h1, h2⟩
    obtain ⟨ab, hab, hab1, hab2⟩ := adjPairs_cover (boundsOf rows)
      (boundsOf_pairwise_lt rows) r.xStartValue r.xEndValue t
      (xs_mem_boundsOf rows r hr) (xe_mem_boundsOf rows r hr) h1 h2
    obtain ⟨seg, hsome⟩ := rawSegOfPair_isSome sel bq rows hpos ab
      (adjPairs_lt _ (boundsOf_pairwise_lt rows) ab hab)
      r hr (lt_of_le_of_lt h1 hab2) (lt_of_le_of_lt hab1 h2)
    obtain ⟨_, hs, he, _, _⟩ := rawSegOfPair_eq_some _ _ _ _ _ hsome
    exact ⟨seg, List.mem_filterMap.mpr ⟨ab, hab, hsome⟩, hs ▸ hab1, he ▸ hab2⟩

theorem merge_contiguous (rows : List BucketRow)
    (hsep : ∀ u ∈ boundsOf rows, ∀ v ∈ boundsOf rows, u ≠ v → eps ≤ qAbs (qSub u v))
    (cur s : Seg) (h1 : cur.segEnd ∈ boundsOf rows) (h2 : s.segStart ∈ boundsOf rows)
    (hc : canMerge cur s = true) : cur.segEnd = s.segStart := by
  by_contra hne
  have hbig := hsep _ h1 _ h2 hne
  rw [qAbs_eq, qSub_eq] at hbig
  unfold canMerge at hc
  simp only [Bool.and_eq_true, decide_eq_true_eq] at hc
  have habs := hc.1.1
  rw [qAbs_eq, qSub_eq] at habs
  linarith

theorem eps_lt_one : eps < 1 := by decide

theorem merge_limits_eq (cur s : Seg)
    (hi1 : ∃ m : ℤ, cur.segLimit = (m : ℚ)) (hi2 : ∃ n : ℤ, s.segLimit = (n : ℚ))
    (hc : canMerge cur s = true) : cur.segLimit = s.segLimit := by
  obtain ⟨m, hm⟩ := hi1
  obtain ⟨n, hn⟩ := hi2
  unfold canMerge at hc
  simp only [Bool.and_eq_true, decide_eq_true_eq] at hc
  have habs := hc.2
  rw [qAbs_eq, qSub_eq, hm, hn] at habs
  rw [hm, hn]
  by_contra hne
  have hmn : m ≠ n := by
    intro h
    exact hne (by rw [h])
  have h1 : (1 : ℚ) ≤ |(m : ℚ) - (n : ℚ)| := by
    rw [← Int.cast_sub, ← Int.cast_abs]
    exact_mod_cast Int.one_le_abs (sub_ne_zero_of_ne hmn)
  linarith [eps_lt_one]

theorem mergeAux_struct (rows : List BucketRow)
    (hsep : ∀ u ∈ boundsOf rows, ∀ v ∈ boundsOf rows, u ≠ v → eps ≤ qAbs (qSub u v)) :
    ∀ (l : List Seg) (cur : Seg), StructSeg rows cur → (∀ s ∈ l, StructSeg rows s) →
    List.Chain' (fun a b => a.segEnd ≤ b.segStart) (cur :: l) →
    (∀ s ∈ mergeAux cur l, StructSeg rows s)
    ∧ List.Chain' (fun a b => a.segEnd ≤ b.segStart) (mergeAux cur l)
    ∧ (∀ t, (∃ s ∈ mergeAux cur l, spansSeg s t) ↔ ∃ s ∈ cur :: l, spansSeg s t) := by
  intro l
  induction l with
  | nil =>
      intro cur hcur _ _
      refine ⟨?_, ?_, ?_⟩
      · intro s hs
        rw [List.mem_singleton.mp hs]
        exact hcur
      · exact List.chain'_singleton cur
      · intro t
        exact Iff.rfl
  | cons s rest ih =>
      intro cur hcur hall hchain
      have hrel : cur.segEnd ≤ s.segStart := (List.chain'_cons.mp hchain).1
      have hs' : StructSeg rows s := hall s (List.mem_cons_self _ _)
      by_cases hc : canMerge cur s = true
      · rw [mergeAux, if_pos hc]
        have hcont : cur.segEnd = s.segStart :=
          merge_contiguous rows hsep cur s hcur.2.1 hs'.1 hc
        have hm : StructSeg rows (mergeInto cur s) := by
          refine ⟨hcur.1, hs'.2.1, ?_⟩
          show cur.segStart < s.segEnd
          calc cur.segStart < cur.segEnd := hcur.2.2
            _ = s.segStart := hcont
            _ < s.segEnd := hs'.2.2
        have hch3 : List.Chain' (fun a b => a.segEnd ≤ b.segStart) (mergeInto cur s :: rest) := by
          have hch2 : List.Chain' (fun a b => a.segEnd ≤ b.segStart) (s :: rest) := hchain.tail
          cases rest with
          | nil => exact List.chain'_singleton _
          | cons r rs =>
              rw [List.chain'_cons] at hch2 ⊢
              exact ⟨hch2.1, hch2.2⟩
        obtain ⟨ha, hb, hcup⟩ := ih (mergeInto cur s) hm
          (fun x hx => hall x (List.mem_cons_of_mem s hx)) hch3
        refine ⟨ha, hb, ?_⟩
        intro t
        rw [hcup t]
        constructor
        · rintro ⟨x, hx, hsp⟩
          rcases List.mem_cons.mp hx with hx1 | hx'
          · rw [hx1] at hsp
            obtain ⟨hl, hr⟩ := hsp
            by_cases ht : t < cur.segEnd
            · exact ⟨cur, List.mem_cons_self _ _, hl, ht⟩
            · refine ⟨s, List.mem_cons_of_mem cur (List.mem_cons_self _ _), ?_, hr⟩
              rw [← hcont]
              exact le_of_not_lt ht
          · exact ⟨x, List.mem_cons_of_mem cur (List.mem_cons_of_mem s hx'), hsp⟩
        · rintro ⟨x, hx, hsp⟩
          rcases List.mem_cons.mp hx with hx1 | hx'
          · rw [hx1] at hsp
            refine ⟨mergeInto cur s, List.mem_cons_self _ _, hsp.1, ?_⟩
            show t < s.segEnd
            calc t < cur.segEnd := hsp.2
              _ = s.segStart := hcont
              _ < s.segEnd := hs'.2.2
          · rcases List.mem_cons.mp hx' with hx2 | hx''
            · rw [hx2] at hsp
              refine ⟨mergeInto cur s, List.mem_cons_self _ _, ?_, hsp.2⟩
              show cur.segStart ≤ t
              calc cur.segStart ≤ cur.segEnd := le_of_lt hcur.2.2
                _ = s.segStart := hcont
                _ ≤ t := hsp.1
            · exact ⟨x, List.mem_cons_of_mem _ hx'', hsp⟩
      · rw [mergeAux, if_neg hc]
        obtain ⟨ha, hb, hcup⟩ := ih s hs'
          (fun x hx => hall x (List.mem_cons_of_mem s hx)) hchain.tail
        refine ⟨?_, ?_, ?_⟩
        · intro x hx
          rcases List.mem_cons.mp hx with rfl | hx'
          · exact hcur
          · exact ha x hx'
        · obtain ⟨x, xs, hx, hxs, _, _⟩ := mergeAux_head s rest
          rw [hx]
          rw [hx] at hb
          rw [List.chain'_cons]
          refine ⟨?_, hb⟩
          rw [hxs]
          exact hrel
        · intro t
          constructor
          · rintro ⟨x, hx, hsp⟩
            rcases List.mem_cons.mp hx with hx1 | hx'
            · rw [hx1] at hsp
              exact ⟨cur, List.mem_cons_self _ _, hsp⟩
            · obtain ⟨y, hy, hysp⟩ := (hcup t).mp ⟨x, hx', hsp⟩
              exact ⟨y, List.mem_cons_of_mem cur hy, hysp⟩
          · rintro ⟨x, hx, hsp⟩
            rcases List.mem_cons.mp hx with hx1 | hx'
            · rw [hx1] at hsp
              exact ⟨cur, List.mem_cons_self _ _, hsp⟩
            · obtain ⟨y, hy, hysp⟩ := (hcup t).mpr ⟨x, hx', hsp⟩
              exact ⟨y, List.mem_cons_of_mem cur hy, hysp⟩

theorem mergeAux_conserve (rows : List BucketRow)
    (hsep : ∀ u ∈ boundsOf rows, ∀ v ∈ boundsOf rows, u ≠ v → eps ≤ qAbs (qSub u v)) :
    ∀ (l : List Seg) (cur : Seg),
    StructSeg rows cur → (∃ n : ℤ, cur.segLimit = (n : ℚ)) →
    (∀ t, spansSeg cur t → cur.segLimit = coveringSum rows t) →
    (∀ s ∈ l, StructSeg rows s ∧ (∃ n : ℤ, s.segLimit = (n : ℚ)) ∧
      (∀ t, spansSeg s t → s.segLimit = coveringSum rows t)) →
    List.Chain' (fun a b => a.segEnd ≤ b.segStart) (cur :: l) →
    ∀ s ∈ mergeAux cur l, ∀ t, spansSeg s t → s.segLimit = coveringSum rows t := by
  intro l
  induction l with
  | nil =>
      intro cur _ _ hgood _ _ s hs
      rw [List.mem_singleton.mp hs]
      exact hgood
  | cons s rest ih =>
      intro cur hcur hcint hcgood hall hchain
      obtain ⟨hs', hsint, hsgood⟩ := hall s (List.mem_cons_self _ _)
      by_cases hc : canMerge cur s = true
      · rw [mergeAux, if_pos hc]
        have hcont : cur.segEnd = s.segStart :=
          merge_contiguous rows hsep cur s hcur.2.1 hs'.1 hc
        have hlim : cur.segLimit = s.segLimit := merge_limits_eq cur s hcint hsint hc
        have hm : StructSeg rows (mergeInto cur s) := by
          refine ⟨hcur.1, hs'.2.1, ?_⟩
          show cur.segStart < s.segEnd
          calc cur.segStart < cur.segEnd := hcur.2.2
            _ = s.segStart := hcont
            _ < s.segEnd := hs'.2.2
        have hmint : ∃ n : ℤ, (mergeInto cur s).segLimit = (n : ℚ) := hcint
        have hmgood : ∀ t, spansSeg (mergeInto cur s) t →
            (mergeInto cur s).segLimit = coveringSum rows t := by
          intro t ht
          obtain ⟨hl, hr⟩ := ht
          by_cases htc : t < cur.segEnd
          · exact hcgood t ⟨hl, htc⟩
          · show cur.segLimit = coveringSum rows t
            rw [hlim]
            refine hsgood t ⟨?_, hr⟩
            rw [← hcont]
            exact le_of_not_lt htc
        have hch3 : List.Chain' (fun a b => a.segEnd ≤ b.segStart) (mergeInto cur s :: rest) := by
          have hch2 : List.Chain' (fun a b => a.segEnd ≤ b.segStart) (s :: rest) := hchain.tail
          cases rest with
          | nil => exact List.chain'_singleton _
          | cons r rs =>
              rw [List.chain'_cons] at hch2 ⊢
              exact ⟨hch2.1, hch2.2⟩
        exact ih (mergeInto cur s) hm hmint hmgood
          (fun x hx => hall x (List.mem_cons_of_mem s hx)) hch3
      · rw [mergeAux, if_neg hc]
        intro x hx
        rcases List.mem_cons.mp hx with hx1 | hx'
        · rw [hx1]
          exact hcgood
        · exact ih s hs' hsint hsgood
            (fun y hy => hall y (List.mem_cons_of_mem s hy)) hchain.tail x hx'

theorem chain_all_le (l : List Seg) (a : Seg)
    (hstr : ∀ s ∈ l, s.segStart < s.segEnd)
    (hch : List.Chain' (fun a b => a.segEnd ≤ b.segStart) (a :: l)) :
    ∀ b ∈ l, a.segEnd ≤ b.segStart := by
  induction l generalizing a with
  | nil => intro b hb; cases hb
  | cons x xs ih =>
      intro b hb
      have h1 : a.segEnd ≤ x.segStart := (List.chain'_cons.mp hch).1
      rcases List.mem_cons.mp hb with hb1 | hb'
      · rw [hb1]
        exact h1
      · have h2 := ih x (fun s hs => hstr s (List.mem_cons_of_mem x hs)) hch.tail b hb'
        calc a.segEnd ≤ x.segStart := h1
          _ ≤ x.segEnd := le_of_lt (hstr x (List.mem_cons_self _ _))
          _ ≤ b.segStart := h2

theorem chain_struct_pairwise (l : List Seg)
    (hstr : ∀ s ∈ l, s.segStart < s.segEnd)
    (hch : List.Chain' (fun a b => a.segEnd ≤ b.segStart) l) :
    List.Pairwise (fun a b => a.segEnd ≤ b.segStart) l := by
  induction l with
  | nil => exact List.Pairwise.nil
  | cons a l ih =>
      refine List.Pairwise.cons ?_ (ih (fun s hs => hstr s (List.mem_cons_of_mem a hs)) hch.tail)
      exact chain_all_le l a (fun s hs => hstr s (List.mem_cons_of_mem a hs)) hch

theorem pairwise_le_disjoint (l : List Seg)
    (hpw : List.Pairwise (fun a b => a.segEnd ≤ b.segStart) l) :
    List.Pairwise (fun a b => ∀ t : ℚ, ¬(spansSeg a t ∧ spansSeg b t)) l := by
  apply hpw.imp
  intro a b h t hcon
  obtain ⟨⟨_, ha2⟩, ⟨hb1, _⟩⟩ := hcon
  exact absurd (lt_of_lt_of_le ha2 (le_trans h hb1)) (lt_irrefl t)

theorem finalSegs_struct_chain_union (sel : Selection) (annualized : Bool) (bq : String)
    (rows : List BucketRow)
    (hpos : ∀ r ∈ rows, 0 < r.limit)
    (hsep : ∀ u ∈ boundsOf rows, ∀ v ∈ boundsOf rows, u ≠ v → eps ≤ qAbs (qSub u v)) :
    (∀ s ∈ finalSegmentsOf sel annualized bq rows, StructSeg rows s)
    ∧ List.Chain' (fun a b => a.segEnd ≤ b.segStart) (finalSegmentsOf sel annualized bq rows)
    ∧ (∀ t : ℚ, (∃ s ∈ finalSegmentsOf sel annualized bq rows, spansSeg s t)
        ↔ ∃ r ∈ rows, r.xStartValue ≤ t ∧ t < r.xEndValue) := by
  have hpw := rawSegs_ordered sel bq rows
  have hun := raw_union sel bq rows hpos
  unfold finalSegmentsOf
  by_cases ha : annualized = true
  · rw [if_pos ha]
    exact ⟨fun s hs => rawSeg_struct sel bq rows s hs, hpw.chain', hun⟩
  · rw [if_neg ha]
    cases hr : rawSegmentsOf sel bq rows with
    | nil =>
        rw [mergeSegments]
        refine ⟨fun s hs => absurd hs (List.not_mem_nil s), List.chain'_nil, ?_⟩
        intro t
        constructor
        · rintro ⟨s, hs, _⟩
          exact absurd hs (List.not_mem_nil s)
        · intro hrr
          obtain ⟨s, hs, _⟩ := (hun t).mpr hrr
          rw [hr] at hs
          exact absurd hs (List.not_mem_nil s)
    | cons c rest =>
        rw [mergeSegments]
        have hstr_all : ∀ s ∈ c :: rest, StructSeg rows s := by
          rw [← hr]
          exact fun s hs => rawSeg_struct sel bq rows s hs
        have hch : List.Chain' (fun a b => a.segEnd ≤ b.segStart) (c :: rest) := by
          rw [← hr]
          exact hpw.chain'
        obtain ⟨h1, h2, h3⟩ := mergeAux_struct rows hsep rest c
          (hstr_all c (List.mem_cons_self _ _))
          (fun s hs => hstr_all s (List.mem_cons_of_mem _ hs)) hch
        refine ⟨h1, h2, ?_⟩
        intro t
        rw [h3 t, ← hr]
        exact hun t

/-- **C2** (amended): within one bucket of the year-axis layer builder — keyed
by (displayGroup, attachmentPoint, quotaGroupKey), not merely
(displayGroup, attachmentPoint) — the emitted segments partition the covered
time axis: their half-open spans are pairwise disjoint, and a time `t` lies in
some emitted segment's span exactly when it lies in some contributing bucket
row's `[xStart, xEnd)` span.  Hypotheses: every row limit is positive, and
distinct interval bounds differ by at least the merge epsilon. -/
theorem bucket_partition (sel : Selection) (annualized : Bool) (bq : String)
    (rows : List BucketRow)
    (hpos : ∀ r ∈ rows, 0 < r.limit)
    (hsep : ∀ u ∈ boundsOf rows, ∀ v ∈ boundsOf rows, u ≠ v → eps ≤ qAbs (qSub u v)) :
    List.Pairwise (fun a b => ∀ t : ℚ, ¬(spansSeg a t ∧ spansSeg b t))
      (finalSegmentsOf sel annualized bq rows)
    ∧ (∀ t : ℚ, (∃ s ∈ finalSegmentsOf sel annualized bq rows, spansSeg s t)
        ↔ ∃ r ∈ rows, r.xStartValue ≤ t ∧ t < r.xEndValue) := by
  obtain ⟨h1, h2, h3⟩ := finalSegs_struct_chain_union sel annualized bq rows hpos hsep
  refine ⟨pairwise_le_disjoint _ (chain_struct_pairwise _ (fun s hs => (h1 s hs).2.2) h2), h3⟩

/-- `rowW1`/`rowW2`: two concrete adjacent bucket rows (calendar 1985 and
1986 year slices) used to instantiate the bucket-level theorems. -/
def rowW1 : BucketRow :=
  { source := sliceC1P1
    sliceQuotaKey := ""
    limit := 1000000
    xStartValue := mkRat 3969 2
    xEndValue := mkRat 3971 2 }

def rowW2 : BucketRow :=
  { source := sliceC1P1
    sliceQuotaKey := ""
    limit := 2000000
    xStartValue := mkRat 3971 2
    xEndValue := mkRat 3973 2 }

def rowsW : List BucketRow := [rowW1, rowW2]

theorem bucket_partition_witness :
    List.Pairwise (fun a b => ∀ t : ℚ, ¬(spansSeg a t ∧ spansSeg b t))
      (finalSegmentsOf selEmpty false "" rowsW)
    ∧ (∀ t : ℚ, (∃ s ∈ finalSegmentsOf selEmpty false "" rowsW, spansSeg s t)
        ↔ ∃ r ∈ rowsW, r.xStartValue ≤ t ∧ t < r.xEndValue) :=
  bucket_partition selEmpty false "" rowsW (by decide) (by decide)

/-- **C3**: conservation — for every final segment of a bucket and every time
`t` inside its half-open span, the segment's summed limit equals the sum of
`limit` over exactly the bucket rows whose `[xStart, xEnd)` span contains `t`;
and every point emitted by the year-axis dataset builder has
`top = attach + sumLimit`.  Hypotheses: row limits are positive and integral
(so the epsilon comparisons of the merge pass are exact), and distinct
interval bounds differ by at least the merge epsilon. -/
theorem segment_conservation (sel : Selection) (annualized : Bool) (bq : String)
    (rows : List BucketRow)
    (hpos : ∀ r ∈ rows, 0 < r.limit)
    (hint : ∀ r ∈ rows, ∃ n : ℤ, r.limit = (n : ℚ))
    (hsep : ∀ u ∈ boundsOf rows, ∀ v ∈ boundsOf rows, u ≠ v → eps ≤ qAbs (qSub u v)) :
    (∀ seg ∈ finalSegmentsOf sel annualized bq rows, ∀ t : ℚ, spansSeg seg t →
      seg.segLimit = coveringSum rows t)
    ∧ (∀ (slices : List Slice) (view : String) (qset : List String) (selp : Selection)
        (hc hcg : List String) (ann : Bool),
        ∀ gp ∈ buildDatasetsForViewYear slices view qset selp hc hcg ann,
        ∀ p ∈ gp.2, p.top = p.attach + p.sumLimit) := by
  constructor
  · unfold finalSegmentsOf
    by_cases ha : annualized = true
    · rw [if_pos ha]
      exact fun seg hseg t ht => rawSeg_conserve sel bq rows hpos seg hseg t ht
    · rw [if_neg ha]
      cases hr : rawSegmentsOf sel bq rows with
      | nil =>
          rw [mergeSegments]
          intro seg hseg
          exact absurd hseg (List.not_mem_nil seg)
      | cons c rest =>
          rw [mergeSegments]
          have hmem : ∀ s ∈ c :: rest, s ∈ rawSegmentsOf sel bq rows := by
            rw [hr]
            exact fun s hs => hs
          have hch : List.Chain' (fun a b => a.segEnd ≤ b.segStart) (c :: rest) := by
            rw [← hr]
            exact (rawSegs_ordered sel bq rows).chain'
          exact mergeAux_conserve rows hsep rest c
            (rawSeg_struct sel bq rows c (hmem c (List.mem_cons_self _ _)))
            (rawSeg_int sel bq rows hint c (hmem c (List.mem_cons_self _ _)))
            (fun t ht => rawSeg_conserve sel bq rows hpos c
              (hmem c (List.mem_cons_self _ _)) t ht)
            (fun s hs =>
              ⟨rawSeg_struct sel bq rows s (hmem s (List.mem_cons_of_mem c hs)),
               rawSeg_int sel bq rows hint s (hmem s (List.mem_cons_of_mem c hs)),
               fun t ht => rawSeg_conserve sel bq rows hpos s
                 (hmem s (List.mem_cons_of_mem c hs)) t ht⟩)
            hch
  · intro slices view qset selp hc hcg ann gp hgp p hp
    simp only [buildDatasetsForViewYear] at hgp
    obtain ⟨g, _, hgeq⟩ := List.mem_map.mp hgp
    rw [← hgeq] at hp
    obtain ⟨e, _, hpe⟩ := List.mem_map.mp ((stSort_mem _ _ p).mp hp)
    rw [← hpe]
    exact qAdd_eq _ _

theorem segment_conservation_witness :
    (∀ seg ∈ finalSegmentsOf selEmpty false "" rowsW, ∀ t : ℚ, spansSeg seg t →
      seg.segLimit = coveringSum rowsW t)
    ∧ (∀ (slices : List Slice) (view : String) (qset : List String) (selp : Selection)
        (hc hcg : List String) (ann : Bool),
        ∀ gp ∈ buildDatasetsForViewYear slices view qset selp hc hcg ann,
        ∀ p ∈ gp.2, p.top = p.attach + p.sumLimit) :=
  segment_conservation selEmpty false "" rowsW (by decide)
    (by
      intro r hr
      rcases List.mem_cons.mp hr with h | h'
      · exact ⟨1000000, by rw [h]; norm_num [rowW1]⟩
      · rcases List.mem_cons.mp h' with h2 | h3
        · exact ⟨2000000, by rw [h2]; norm_num [rowW2]⟩
        · exact absurd h3 (List.not_mem_nil r))
    (by decide)

/- ================================
   C6: year-axis slicing (`buildSlices` year loop and `msToYearAxisValue`)
================================ -/

theorem ediv_sub_one_diff (n k : ℤ) (hk : 0 < k) :
    n / k - (n - 1) / k = if k ∣ n then 1 else 0 := by
  have hne : k ≠ 0 := hk.ne'
  have hmod := Int.ediv_add_emod n k
  by_cases hdvd : k ∣ n
  · rw [if_pos hdvd]
    have hr : n % k = 0 := Int.emod_eq_zero_of_dvd hdvd
    have hn : n = k * (n / k) := by omega
    have hsplit : n - 1 = (k - 1) + k * ((n / k) - 1) := by linear_combination hn
    have h1 : (n - 1) / k = (k - 1) / k + ((n / k) - 1) := by
      rw [hsplit, Int.add_mul_ediv_left _ _ hne]
    have h2 : (k - 1) / k = 0 := Int.ediv_eq_zero_of_lt (by omega) (by omega)
    rw [h1, h2]
    omega
  · rw [if_neg hdvd]
    have hr0 : n % k ≠ 0 := fun h => hdvd (Int.dvd_of_emod_eq_zero h)
    have hrnn := Int.emod_nonneg n hne
    have hrlt := Int.emod_lt_of_pos n hk
    have hsplit : n - 1 = (n % k - 1) + k * (n / k) := by omega
    have h1 : (n - 1) / k = (n % k - 1) / k + (n / k) := by
      rw [hsplit, Int.add_mul_ediv_left _ _ hne]
    have h2 : (n % k - 1) / k = 0 := Int.ediv_eq_zero_of_lt (by omega) (by omega)
    rw [h1, h2]
    omega

theorem leapsBefore_succ (y : ℤ) :
    leapsBefore (y + 1) - leapsBefore y =
      (if (4 : ℤ) ∣ y then 1 else 0) - (if (100 : ℤ) ∣ y then 1 else 0)
        + (if (400 : ℤ) ∣ y then 1 else 0) := by
  unfold leapsBefore
  rw [Int.fdiv_eq_ediv _ (by norm_num), Int.fdiv_eq_ediv _ (by norm_num),
    Int.fdiv_eq_ediv _ (by norm_num), Int.fdiv_eq_ediv _ (by norm_num),
    Int.fdiv_eq_ediv _ (by norm_num), Int.fdiv_eq_ediv _ (by norm_num)]
  have h4 := ediv_sub_one_diff y 4 (by norm_num)
  have h100 := ediv_sub_one_diff y 100 (by norm_num)
  have h400 := ediv_sub_one_diff y 400 (by norm_num)
  have hy : y + 1 - 1 = y := by ring
  rw [hy]
  omega

theorem startOfYearDays_succ_bounds (y : ℤ) :
    365 ≤ startOfYearDays (y + 1) - startOfYearDays y
    ∧ startOfYearDays (y + 1) - startOfYearDays y ≤ 366 := by
  have h := leapsBefore_succ y
  have h1 : ((100 : ℤ) ∣ y) → ((4 : ℤ) ∣ y) := fun hd => dvd_trans (by norm_num) hd
  have h2 : ((400 : ℤ) ∣ y) → ((100 : ℤ) ∣ y) := fun hd => dvd_trans (by norm_num) hd
  unfold startOfYearDays
  by_cases hd4 : (4 : ℤ) ∣ y <;> by_cases hd100 : (100 : ℤ) ∣ y <;>
    by_cases hd400 : (400 : ℤ) ∣ y <;>
      simp only [hd4, hd100, hd400, if_true, if_false] at h <;> omega

theorem startOfYearDays_mono {a b : ℤ} (h : a ≤ b) :
    startOfYearDays a ≤ startOfYearDays b ∧
      365 * (b - a) ≤ startOfYearDays b - startOfYearDays a := by
  obtain ⟨n, rfl⟩ : ∃ n : ℕ, b = a + (n : ℤ) := ⟨(b - a).toNat, by omega⟩
  induction n with
  | zero => simp
  | succ m ih =>
      have hm : a ≤ a + (m : ℤ) := by omega
      obtain ⟨ih1, ih2⟩ := ih hm
      have hstep := startOfYearDays_succ_bounds (a + (m : ℤ))
      have heq : a + ((m + 1 : ℕ) : ℤ) = (a + (m : ℤ)) + 1 := by push_cast; ring
      rw [heq]
      constructor
      · omega
      · have : 365 * ((a + (m : ℤ) + 1) - a) = 365 * ((a + (m : ℤ)) - a) + 365 := by ring
        omega

theorem yearOfDay_ex_pos (z : ℤ) (hz : 0 ≤ z) :
    ∃ n : ℕ, z < startOfYearDays (1970 + (n : ℤ) + 1) := by
  refine ⟨z.toNat, ?_⟩
  have h := (startOfYearDays_mono (show (1970:ℤ) ≤ 1970 + (z.toNat : ℤ) + 1 by omega)).2
  have h0 : startOfYearDays 1970 = 0 := by decide
  omega

theorem yearOfDay_ex_neg (z : ℤ) (hz : ¬ 0 ≤ z) :
    ∃ n : ℕ, startOfYearDays (1969 - (n : ℤ)) ≤ z := by
  refine ⟨(-z).toNat, ?_⟩
  have h := (startOfYearDays_mono (show (1969:ℤ) - ((-z).toNat : ℤ) ≤ 1970 by omega)).2
  have h0 : startOfYearDays 1970 = 0 := by decide
  omega

/-- The UTC calendar year containing day number `z`
(`new Date(t).getUTCFullYear()` at day granularity): the unique `y` with
`startOfYearDays y ≤ z < startOfYearDays (y + 1)`. -/
def yearOfDay (z : ℤ) : ℤ :=
  if hz : 0 ≤ z then 1970 + (Nat.find (yearOfDay_ex_pos z hz) : ℤ)
  else 1969 - (Nat.find (yearOfDay_ex_neg z hz) : ℤ)

theorem yearOfDay_bracket (z : ℤ) :
    startOfYearDays (yearOfDay z) ≤ z ∧ z < startOfYearDays (yearOfDay z + 1) := by
  by_cases hz : 0 ≤ z
  · rw [yearOfDay, dif_pos hz]
    have hspec := Nat.find_spec (yearOfDay_ex_pos z hz)
    constructor
    · rcases Nat.eq_zero_or_pos (Nat.find (yearOfDay_ex_pos z hz)) with h0 | hpos
      · rw [h0]
        have he : (1970 : ℤ) + ((0 : ℕ) : ℤ) = 1970 := by norm_num
        rw [he]
        have hS : startOfYearDays 1970 = 0 := by decide
        omega
      · have hmin := Nat.find_min (yearOfDay_ex_pos z hz)
          (show Nat.find (yearOfDay_ex_pos z hz) - 1 < Nat.find (yearOfDay_ex_pos z hz) by omega)
        push_neg at hmin
        have hcast : (1970 : ℤ) + ((Nat.find (yearOfDay_ex_pos z hz) - 1 : ℕ) : ℤ) + 1
            = 1970 + ((Nat.find (yearOfDay_ex_pos z hz) : ℕ) : ℤ) := by
          push_cast [Nat.cast_sub hpos]
          ring
        rw [hcast] at hmin
        exact hmin
    · exact hspec
  · rw [yearOfDay, dif_neg hz]
    have hspec := Nat.find_spec (yearOfDay_ex_neg z hz)
    constructor
    · exact hspec
    · rcases Nat.eq_zero_or_pos (Nat.find (yearOfDay_ex_neg z hz)) with h0 | hpos
      · rw [h0]
        have he : (1969 : ℤ) - ((0 : ℕ) : ℤ) + 1 = 1970 := by norm_num
        rw [he]
        have hS : startOfYearDays 1970 = 0 := by decide
        omega
      · have hmin := Nat.find_min (yearOfDay_ex_neg z hz)
          (show Nat.find (yearOfDay_ex_neg z hz) - 1 < Nat.find (yearOfDay_ex_neg z hz) by omega)
        push_neg at hmin
        have hcast : (1969 : ℤ) - ((Nat.find (yearOfDay_ex_neg z hz) - 1 : ℕ) : ℤ)
            = 1969 - ((Nat.find (yearOfDay_ex_neg z hz) : ℕ) : ℤ) + 1 := by
          push_cast [Nat.cast_sub hpos]
          ring
        rw [hcast] at hmin
        exact hmin

theorem yearOfDay_eq {y z : ℤ} (h1 : startOfYearDays y ≤ z)
    (h2 : z < startOfYearDays (y + 1)) : yearOfDay z = y := by
  have hb := yearOfDay_bracket z
  by_contra hne
  rcases lt_or_gt_of_ne hne with hlt | hgt
  · have := (startOfYearDays_mono (show yearOfDay z + 1 ≤ y by omega)).1
    omega
  · have := (startOfYearDays_mono (show y + 1 ≤ yearOfDay z by omega)).1
    omega

theorem startOfYearUTCms_mono {a b : ℤ} (h : a ≤ b) :
    startOfYearUTCms a ≤ startOfYearUTCms b := by
  unfold startOfYearUTCms
  have hm := (startOfYearDays_mono h).1
  have hd : (0 : ℤ) < msPerDay := by decide
  exact mul_le_mul_of_nonneg_left hm (le_of_lt hd)

theorem startOfYearUTCms_succ_gap (y : ℤ) :
    startOfYearUTCms y + 365 * msPerDay ≤ startOfYearUTCms (y + 1) := by
  unfold startOfYearUTCms
  have hd : (0 : ℤ) < msPerDay := by decide
  have h1 := (startOfYearDays_succ_bounds y).1
  have h2 := mul_le_mul_of_nonneg_left
    (show startOfYearDays y + 365 ≤ startOfYearDays (y + 1) by omega) (le_of_lt hd)
  have h3 : msPerDay * (startOfYearDays y + 365)
      = msPerDay * startOfYearDays y + 365 * msPerDay := by ring
  omega

/-- The UTC calendar year containing millisecond timestamp `t`
(`new Date(t).getUTCFullYear()`). -/
def yearOfMs (t : ℤ) : ℤ := yearOfDay (Int.fdiv t msPerDay)

theorem yearOfMs_eq {y t : ℤ} (h1 : startOfYearUTCms y ≤ t)
    (h2 : t < startOfYearUTCms (y + 1)) : yearOfMs t = y := by
  unfold yearOfMs
  rw [startOfYearUTCms, mul_comm] at h1
  rw [startOfYearUTCms, mul_comm] at h2
  apply yearOfDay_eq
  · rw [Int.fdiv_eq_ediv _ (by decide)]
    exact (Int.le_ediv_iff_mul_le (by decide)).mpr h1
  · rw [Int.fdiv_eq_ediv _ (by decide)]
    exact (Int.ediv_lt_iff_lt_mul (by decide)).mpr h2

/-- `msToYearAxisValue(ms)`: centers calendar year `y` on the axis interval
`[y - 0.5, y + 0.5)`; `frac` is the clamped fraction of the year elapsed at
`t`.  (The `Number.isFinite` guard cannot fire for integer timestamps.) -/
def msToYearAxisValue (t : ℤ) : ℚ :=
  if ¬ (startOfYearUTCms (yearOfMs t + 1) - startOfYearUTCms (yearOfMs t) > 0)
  then ((yearOfMs t : ℤ) : ℚ)
  else qAdd (qSub ((yearOfMs t : ℤ) : ℚ) (mkRat 1 2))
    (min 1 (max 0 (qDiv ((t - startOfYearUTCms (yearOfMs t) : ℤ) : ℚ)
      ((startOfYearUTCms (yearOfMs t + 1) - startOfYearUTCms (yearOfMs t) : ℤ) : ℚ))))

theorem span_pos (y : ℤ) : (0 : ℤ) < startOfYearUTCms (y + 1) - startOfYearUTCms y := by
  have h := startOfYearUTCms_succ_gap y
  have h2 : (0 : ℤ) < 365 * msPerDay := by decide
  omega

theorem msToYearAxisValue_eval {y t : ℤ} (h1 : startOfYearUTCms y ≤ t)
    (h2 : t < startOfYearUTCms (y + 1)) :
    msToYearAxisValue t = (y : ℚ) - 1/2
      + ((t - startOfYearUTCms y : ℤ) : ℚ)
        / ((startOfYearUTCms (y + 1) - startOfYearUTCms y : ℤ) : ℚ) := by
  have hy := yearOfMs_eq h1 h2
  rw [msToYearAxisValue, hy]
  have hspan := span_pos y
  have hspanQ : (0 : ℚ) < ((startOfYearUTCms (y + 1) - startOfYearUTCms y : ℤ) : ℚ) := by
    exact_mod_cast hspan
  have hfrac0 : (0 : ℚ) ≤ ((t - startOfYearUTCms y : ℤ) : ℚ)
      / ((startOfYearUTCms (y + 1) - startOfYearUTCms y : ℤ) : ℚ) := by
    apply div_nonneg _ (le_of_lt hspanQ)
    exact_mod_cast sub_nonneg.mpr h1
  have hfrac1 : ((t - startOfYearUTCms y : ℤ) : ℚ)
      / ((startOfYearUTCms (y + 1) - startOfYearUTCms y : ℤ) : ℚ) ≤ 1 := by
    apply (div_le_one hspanQ).mpr
    exact_mod_cast sub_le_sub_right (le_of_lt h2) _
  rw [if_neg (not_not_intro hspan), qAdd_eq, qSub_eq, qDiv_eq, Rat.mkRat_eq_div,
    max_eq_right hfrac0, min_eq_right hfrac1]
  norm_num

/-- One emitted year slice of the `useYearAxis` loop of `buildSlices`
(the year-dependent fields; the `baseSlice` spread fields do not vary with
`y`). -/
structure YearSlice where
  year : ℤ
  sliceLimit : ℚ
  yearOverlapStartMs : ℤ
  yearOverlapEndMs : ℤ
  yearOverlapRatio : ℚ
  xStartValue : ℚ
  xEndValue : ℚ
  xMidValue : ℚ
  x : String
  deriving Repr, DecidableEq

/-- The body of the `for (let y = policyStartYear; y <= policyEndYear; y++)`
loop for one year `y` (`continue` is `none`). -/
def yearSliceOf (ps pe : ℤ) (lim : ℚ) (y : ℤ) : Option YearSlice :=
  if min pe (endOfYearUTCms y) < max ps (startOfYearUTCms y) then none
  else
    if ¬ (msToYearAxisValue (min (min pe (endOfYearUTCms y) + 1) (startOfNextYearUTCms y))
        > msToYearAxisValue (max ps (startOfYearUTCms y))) then none
    else some
      { year := y
        sliceLimit := lim
        yearOverlapStartMs := max ps (startOfYearUTCms y)
        yearOverlapEndMs := min pe (endOfYearUTCms y)
        yearOverlapRatio :=
          if endOfYearUTCms y - startOfYearUTCms y + 1 > 0 then
            qDiv ((min pe (endOfYearUTCms y) - max ps (startOfYearUTCms y) + 1 : ℤ) : ℚ)
              ((endOfYearUTCms y - startOfYearUTCms y + 1 : ℤ) : ℚ)
          else 0
        xStartValue := msToYearAxisValue (max ps (startOfYearUTCms y))
        xEndValue := msToYearAxisValue
          (min (min pe (endOfYearUTCms y) + 1) (startOfNextYearUTCms y))
        xMidValue := qDiv (qAdd (msToYearAxisValue (max ps (startOfYearUTCms y)))
          (msToYearAxisValue
            (min (min pe (endOfYearUTCms y) + 1) (startOfNextYearUTCms y)))) 2
        x := toString y }

/-- The year loop of `buildSlices` for one limits row with resolved policy
year range `[sy, ey]` and policy span `[ps, pe]` (ms), emitting the full
`sliceLimitRaw` in every overlapped year. -/
def buildYearSlices (sy ey ps pe : ℤ) (lim : ℚ) : List YearSlice :=
  (intRange sy ey).filterMap (yearSliceOf ps pe lim)

set_option maxHeartbeats 1000000 in
theorem yearSliceOf_eval (ps pe : ℤ) (lim : ℚ) (sy ey y : ℤ)
    (hs1 : startOfYearUTCms sy ≤ ps) (hs2 : ps < startOfYearUTCms (sy + 1))
    (he1 : startOfYearUTCms ey ≤ pe) (he2 : pe < startOfYearUTCms (ey + 1))
    (hps : ps ≤ pe) (hy1 : sy ≤ y) (hy2 : y ≤ ey) :
    ∃ sl, yearSliceOf ps pe lim y = some sl
      ∧ sl.year = y
      ∧ sl.sliceLimit = lim
      ∧ sl.xStartValue = (y : ℚ) - 1/2
          + ((max ps (startOfYearUTCms y) - startOfYearUTCms y : ℤ) : ℚ)
            / ((startOfYearUTCms (y + 1) - startOfYearUTCms y : ℤ) : ℚ)
      ∧ sl.xEndValue = (y : ℚ) - 1/2
          + ((min (pe + 1) (startOfYearUTCms (y + 1)) - startOfYearUTCms y : ℤ) : ℚ)
            / ((startOfYearUTCms (y + 1) - startOfYearUTCms y : ℤ) : ℚ)
      ∧ (y : ℚ) - 1/2 ≤ sl.xStartValue
      ∧ sl.xStartValue < sl.xEndValue
      ∧ sl.xEndValue ≤ (y : ℚ) + 1/2 := by
  have hEnd : endOfYearUTCms y = startOfYearUTCms (y + 1) - 1 := rfl
  have hNext : startOfNextYearUTCms y = startOfYearUTCms (y + 1) := rfl
  have hmono1 : startOfYearUTCms (sy + 1) ≤ startOfYearUTCms (y + 1) :=
    startOfYearUTCms_mono (by omega)
  have hmono2 : startOfYearUTCms y ≤ startOfYearUTCms ey := startOfYearUTCms_mono hy2
  have hspan := span_pos y
  have hps' : ps < startOfYearUTCms (y + 1) := by omega
  have hpe' : startOfYearUTCms y ≤ pe := by omega
  have hosl : startOfYearUTCms y ≤ max ps (startOfYearUTCms y) := le_max_right _ _
  have hosu : max ps (startOfYearUTCms y) < startOfYearUTCms (y + 1) := by omega
  have hoel : max ps (startOfYearUTCms y) ≤ min pe (endOfYearUTCms y) := by omega
  have hoee_term : min (min pe (endOfYearUTCms y) + 1) (startOfNextYearUTCms y)
      = min (pe + 1) (startOfYearUTCms (y + 1)) := by omega
  have hspanQ : (0 : ℚ) < ((startOfYearUTCms (y + 1) - startOfYearUTCms y : ℤ) : ℚ) := by
    exact_mod_cast hspan
  have hxs : msToYearAxisValue (max ps (startOfYearUTCms y)) = (y : ℚ) - 1/2
      + ((max ps (startOfYearUTCms y) - startOfYearUTCms y : ℤ) : ℚ)
        / ((startOfYearUTCms (y + 1) - startOfYearUTCms y : ℤ) : ℚ) :=
    msToYearAxisValue_eval hosl hosu
  have hxe : msToYearAxisValue (min (min pe (endOfYearUTCms y) + 1) (startOfNextYearUTCms y))
      = (y : ℚ) - 1/2
        + ((min (pe + 1) (startOfYearUTCms (y + 1)) - startOfYearUTCms y : ℤ) : ℚ)
          / ((startOfYearUTCms (y + 1) - startOfYearUTCms y : ℤ) : ℚ) := by
    rw [hoee_term]
    by_cases hc : min (pe + 1) (startOfYearUTCms (y + 1)) < startOfYearUTCms (y + 1)
    · exact msToYearAxisValue_eval (by omega) hc
    · have heq : min (pe + 1) (startOfYearUTCms (y + 1)) = startOfYearUTCms (y + 1) := by
        omega
      rw [heq]
      have hsp2 := span_pos (y + 1)
      have heval := msToYearAxisValue_eval (le_refl (startOfYearUTCms (y + 1)))
        (show startOfYearUTCms (y + 1) < startOfYearUTCms (y + 1 + 1) by omega)
      rw [heval]
      have hz : ((startOfYearUTCms (y + 1) - startOfYearUTCms (y + 1) : ℤ) : ℚ) = 0 := by
        simp
      rw [hz, zero_div, div_self (ne_of_gt hspanQ)]
      push_cast
      ring
  have hnum0 : (0 : ℚ) ≤ ((max ps (startOfYearUTCms y) - startOfYearUTCms y : ℤ) : ℚ) := by
    exact_mod_cast sub_nonneg.mpr hosl
  have hnumlt : ((max ps (startOfYearUTCms y) - startOfYearUTCms y : ℤ) : ℚ)
      < ((min (pe + 1) (startOfYearUTCms (y + 1)) - startOfYearUTCms y : ℤ) : ℚ) := by
    have : max ps (startOfYearUTCms y) < min (pe + 1) (startOfYearUTCms (y + 1)) := by omega
    exact_mod_cast sub_lt_sub_right this _
  have hnumle : ((min (pe + 1) (startOfYearUTCms (y + 1)) - startOfYearUTCms y : ℤ) : ℚ)
      ≤ ((startOfYearUTCms (y + 1) - startOfYearUTCms y : ℤ) : ℚ) := by
    have : min (pe + 1) (startOfYearUTCms (y + 1)) ≤ startOfYearUTCms (y + 1) :=
      min_le_right _ _
    exact_mod_cast sub_le_sub_right this _
  have hdivlt : ((max ps (startOfYearUTCms y) - startOfYearUTCms y : ℤ) : ℚ)
        / ((startOfYearUTCms (y + 1) - startOfYearUTCms y : ℤ) : ℚ)
      < ((min (pe + 1) (startOfYearUTCms (y + 1)) - startOfYearUTCms y : ℤ) : ℚ)
        / ((startOfYearUTCms (y + 1) - startOfYearUTCms y : ℤ) : ℚ) := by
    rw [div_lt_div_iff hspanQ hspanQ]
    exact mul_lt_mul_of_pos_right hnumlt hspanQ
  have hlt : msToYearAxisValue (max ps (startOfYearUTCms y))
      < msToYearAxisValue (min (min pe (endOfYearUTCms y) + 1) (startOfNextYearUTCms y)) := by
    rw [hxs, hxe]
    exact add_lt_add_left hdivlt _
  have hsome : yearSliceOf ps pe lim y = some
      { year := y
        sliceLimit := lim
        yearOverlapStartMs := max ps (startOfYearUTCms y)
        yearOverlapEndMs := min pe (endOfYearUTCms y)
        yearOverlapRatio :=
          if endOfYearUTCms y - startOfYearUTCms y + 1 > 0 then
            qDiv ((min pe (endOfYearUTCms y) - max ps (startOfYearUTCms y) + 1 : ℤ) : ℚ)
              ((endOfYearUTCms y - startOfYearUTCms y + 1 : ℤ) : ℚ)
          else 0
        xStartValue := msToYearAxisValue (max ps (startOfYearUTCms y))
        xEndValue := msToYearAxisValue
          (min (min pe (endOfYearUTCms y) + 1) (startOfNextYearUTCms y))
        xMidValue := qDiv (qAdd (msToYearAxisValue (max ps (startOfYearUTCms y)))
          (msToYearAxisValue
            (min (min pe (endOfYearUTCms y) + 1) (startOfNextYearUTCms y)))) 2
        x := toString y } := by
    rw [yearSliceOf, if_neg (by omega), if_neg (not_not_intro hlt)]
  refine ⟨_, hsome, rfl, rfl, hxs, hxe, ?_, hlt, ?_⟩
  · rw [hxs]
    have := div_nonneg hnum0 (le_of_lt hspanQ)
    linarith
  · rw [hxe]
    have := (div_le_one hspanQ).mpr hnumle
    linarith

theorem mem_intRange {a b y : ℤ} : y ∈ intRange a b ↔ a ≤ y ∧ y ≤ b := by
  unfold intRange
  constructor
  · intro h
    obtain ⟨i, hi, heq⟩ := List.mem_map.mp h
    have hlt := List.mem_range.mp hi
    omega
  · rintro ⟨h1, h2⟩
    apply List.mem_map.mpr
    refine ⟨(y - a).toNat, List.mem_range.mpr (by omega), by omega⟩

theorem filterMap_map_back {α β : Type} (f : α → Option β) (g : β → α) :
    ∀ l : List α, (∀ y ∈ l, ∃ sl, f y = some sl ∧ g sl = y) →
      (l.filterMap f).map g = l := by
  intro l
  induction l with
  | nil => intro _; rfl
  | cons a l ih =>
      intro h
      obtain ⟨sl, hsl, hg⟩ := h a (List.mem_cons_self _ _)
      rw [List.filterMap_cons_some hsl, List.map_cons, hg,
        ih (fun y hy => h y (List.mem_cons_of_mem a hy))]

/-- **C6**: year-axis slicing without proration.  For a limits row whose
resolved policy span `[ps, pe]` (ms) starts in calendar year `sy` and ends in
calendar year `ey`, the year loop of `buildSlices` emits exactly one slice per
covered year (`map year = [sy..ey]`), each carrying the row's full
`sliceLimit` unchanged, with `xStart`/`xEnd` equal to the policy span's
overlap with that year mapped onto the continuous axis on which year `y`
occupies `[y - 0.5, y + 0.5)`: `xStart` sits at the year fraction of
`max ps (startOfYear y)`, `xEnd` at the year fraction of the exclusive
overlap end `min (pe + 1) (startOfYear (y+1))`, and
`y - 0.5 ≤ xStart < xEnd ≤ y + 0.5`. -/
theorem year_axis_slicing (sy ey ps pe : ℤ) (lim : ℚ)
    (hs1 : startOfYearUTCms sy ≤ ps) (hs2 : ps < startOfYearUTCms (sy + 1))
    (he1 : startOfYearUTCms ey ≤ pe) (he2 : pe < startOfYearUTCms (ey + 1))
    (hps : ps ≤ pe) :
    (buildYearSlices sy ey ps pe lim).map (fun sl => sl.year) = intRange sy ey
    ∧ ∀ sl ∈ buildYearSlices sy ey ps pe lim,
        sl.sliceLimit = lim
        ∧ sl.xStartValue = (sl.year : ℚ) - 1/2
            + ((max ps (startOfYearUTCms sl.year) - startOfYearUTCms sl.year : ℤ) : ℚ)
              / ((startOfYearUTCms (sl.year + 1) - startOfYearUTCms sl.year : ℤ) : ℚ)
        ∧ sl.xEndValue = (sl.year : ℚ) - 1/2
            + ((min (pe + 1) (startOfYearUTCms (sl.year + 1))
                  - startOfYearUTCms sl.year : ℤ) : ℚ)
              / ((startOfYearUTCms (sl.year + 1) - startOfYearUTCms sl.year : ℤ) : ℚ)
        ∧ (sl.year : ℚ) - 1/2 ≤ sl.xStartValue
        ∧ sl.xStartValue < sl.xEndValue
        ∧ sl.xEndValue ≤ (sl.year : ℚ) + 1/2 := by
  constructor
  · apply filterMap_map_back
    intro y hy
    obtain ⟨hy1, hy2⟩ := mem_intRange.mp hy
    obtain ⟨sl, hsome, hyear, _⟩ :=
      yearSliceOf_eval ps pe lim sy ey y hs1 hs2 he1 he2 hps hy1 hy2
    exact ⟨sl, hsome, hyear⟩
  · intro sl hsl
    obtain ⟨y, hy, hsome⟩ := List.mem_filterMap.mp hsl
    obtain ⟨hy1, hy2⟩ := mem_intRange.mp hy
    obtain ⟨sl', hsome', hyear, hlim, hxs, hxe, hb1, hb2, hb3⟩ :=
      yearSliceOf_eval ps pe lim sy ey y hs1 hs2 he1 he2 hps hy1 hy2
    have hsl' : sl' = sl := Option.some.inj (hsome'.symm.trans hsome)
    rw [← hsl', hyear]
    exact ⟨hlim, hxs, hxe, hb1, hb2, hb3⟩

/-- Jul 1 1985 (UTC midnight), in ms: day 181 of 1985. -/
def psW : ℤ := startOfYearUTCms 1985 + 181 * msPerDay

/-- Jun 30 1986, end of day (`getTime() + 86399999`): Jun 30 is day 180 of
1986. -/
def peW : ℤ := startOfYearUTCms 1986 + 180 * msPerDay + (msPerDay - 1)

theorem year_axis_slicing_witness :
    (buildYearSlices 1985 1986 psW peW 1000000).map (fun sl => sl.year)
      = intRange 1985 1986
    ∧ ∀ sl ∈ buildYearSlices 1985 1986 psW peW 1000000,
        sl.sliceLimit = 1000000
        ∧ sl.xStartValue = (sl.year : ℚ) - 1/2
            + ((max psW (startOfYearUTCms sl.year) - startOfYearUTCms sl.year : ℤ) : ℚ)
              / ((startOfYearUTCms (sl.year + 1) - startOfYearUTCms sl.year : ℤ) : ℚ)
        ∧ sl.xEndValue = (sl.year : ℚ) - 1/2
            + ((min (peW + 1) (startOfYearUTCms (sl.year + 1))
                  - startOfYearUTCms sl.year : ℤ) : ℚ)
              / ((startOfYearUTCms (sl.year + 1) - startOfYearUTCms sl.year : ℤ) : ℚ)
        ∧ (sl.year : ℚ) - 1/2 ≤ sl.xStartValue
        ∧ sl.xStartValue < sl.xEndValue
        ∧ sl.xEndValue ≤ (sl.year : ℚ) + 1/2 :=
  year_axis_slicing 1985 1986 psW peW 1000000 (by decide) (by decide) (by decide)
    (by decide) (by decide)

/- ================================
   C10: the implicit default policy-limit-type filter
================================ -/

theorem dropWhile_head_false {α : Type} (p : α → Bool) (l : List α) :
    ∀ x ∈ (l.dropWhile p).head?, p x = false := by
  induction l with
  | nil => intro x hx; cases hx
  | cons a l ih =>
      intro x hx
      rw [List.dropWhile_cons] at hx
      by_cases hp : p a = true
      · rw [if_pos hp] at hx
        exact ih x hx
      · rw [if_neg hp] at hx
        cases hx
        exact Bool.not_eq_true _ |>.mp hp

theorem dropWhile_eq_self_of_head {α : Type} (p : α → Bool) (l : List α)
    (h : ∀ x ∈ l.head?, p x = false) : l.dropWhile p = l := by
  cases l with
  | nil => rfl
  | cons a l =>
      rw [List.dropWhile_cons, if_neg]
      rw [h a rfl]
      exact Bool.false_ne_true

theorem dropWhile_idem {α : Type} (p : α → Bool) (l : List α) :
    (l.dropWhile p).dropWhile p = l.dropWhile p :=
  dropWhile_eq_self_of_head p _ (dropWhile_head_false p l)

theorem prefix_head_eq {α : Type} {t u : List α} (h : t <+: u) (hne : t ≠ []) :
    t.head? = u.head? := by
  obtain ⟨r, hr⟩ := h
  cases t with
  | nil => exact absurd rfl hne
  | cons a t' =>
      rw [← hr]
      rfl

theorem strTrim_idem (s : String) : strTrim (strTrim s) = strTrim s := by
  unfold strTrim
  apply congrArg String.mk
  have hdata : (String.mk (((s.data.dropWhile isWsChar).reverse.dropWhile
      isWsChar).reverse)).data
      = ((s.data.dropWhile isWsChar).reverse.dropWhile isWsChar).reverse := rfl
  rw [hdata]
  have hstepA : (((s.data.dropWhile isWsChar).reverse.dropWhile
      isWsChar).reverse).dropWhile isWsChar
      = ((s.data.dropWhile isWsChar).reverse.dropWhile isWsChar).reverse := by
    apply dropWhile_eq_self_of_head
    intro x hx
    by_cases hemp : ((s.data.dropWhile isWsChar).reverse.dropWhile isWsChar).reverse = []
    · rw [hemp] at hx
      cases hx
    · have hpre : ((s.data.dropWhile isWsChar).reverse.dropWhile isWsChar).reverse
          <+: s.data.dropWhile isWsChar := by
        have hsuf := List.dropWhile_suffix (l := (s.data.dropWhile isWsChar).reverse)
          isWsChar
        have := List.reverse_prefix.mpr hsuf
        rwa [List.reverse_reverse] at this
      rw [prefix_head_eq hpre hemp] at hx
      exact dropWhile_head_false isWsChar s.data x hx
  rw [hstepA, List.reverse_reverse, dropWhile_idem]

theorem mem_availableLimitTypes {allSlices : List Slice} {t : String}
    (h : t ∈ availableLimitTypes allSlices) : t ≠ "" ∧ strTrim t = t := by
  rw [availableLimitTypes, stSort_mem, List.mem_dedup, List.mem_filter] at h
  obtain ⟨hmap, hne⟩ := h
  obtain ⟨x, _, hx⟩ := List.mem_map.mp hmap
  refine ⟨by simpa using hne, ?_⟩
  rw [← hx, strTrim_idem]

theorem defaultPolicyLimitType_ne_empty {allSlices : List Slice}
    (hne : availableLimitTypes allSlices ≠ []) :
    defaultPolicyLimitType allSlices ≠ "" := by
  rw [defaultPolicyLimitType]
  cases hfind : (availableLimitTypes allSlices).find?
      (fun t => strLower (strTrim t) = "bodily injury") with
  | some t =>
      have hp := List.find?_some hfind
      have htne : t ≠ "" := by
        intro hteq
        rw [hteq] at hp
        simp only [decide_eq_true_eq] at hp
        exact absurd hp (by decide)
      simp only [hfind, Option.getD_some, jsOrS, if_neg htne]
      exact htne
  | none =>
      cases havail : availableLimitTypes allSlices with
      | nil => exact absurd havail hne
      | cons a rest =>
          have hmem : a ∈ availableLimitTypes allSlices := by
            rw [havail]
            exact List.mem_cons_self _ _
          obtain ⟨hane, hatrim⟩ := mem_availableLimitTypes hmem
          simp only [hfind, Option.getD_none, jsOrS, if_pos rfl, havail, List.headD_cons]
          rw [hatrim]
          exact hane

theorem applyFilters_policyLimitType (parseDate : String → Option ℤ) (st : CacheState) :
    (applyFiltersToCache parseDate st).filters.policyLimitType
      = (if strTrim st.filters.policyLimitType ≠ "" then strTrim st.filters.policyLimitType
         else defaultPolicyLimitType st.allSlices) := rfl

theorem applyFilters_slices_shape (parseDate : String → Option ℤ) (st : CacheState) :
    ∃ F : List Slice, (applyFiltersToCache parseDate st).slices
      = (if (applyFiltersToCache parseDate st).filters.policyLimitType ≠ "" then
          F.filter (fun s => strTrim s.policyLimitType
            = (applyFiltersToCache parseDate st).filters.policyLimitType)
         else F) := ⟨_, rfl⟩

/-- **C10**: when no policy-limit-type filter is set (its trimmed value is
blank), `applyFiltersToCache` silently selects the implicit default —
"Bodily Injury" when available, else the alphabetically first non-blank
type — writes it back into the filter state, and, whenever any slice has a
non-blank limit type, restricts the rendered slices to exactly that single
type, so no two rendered slices differ in (trimmed) policy limit type. -/
theorem implicit_default_limit_type (parseDate : String → Option ℤ) (st : CacheState)
    (hunset : strTrim st.filters.policyLimitType = "") :
    (applyFiltersToCache parseDate st).filters.policyLimitType
        = defaultPolicyLimitType st.allSlices
    ∧ (availableLimitTypes st.allSlices ≠ [] →
        defaultPolicyLimitType st.allSlices ≠ ""
        ∧ (∀ s ∈ (applyFiltersToCache parseDate st).slices,
            strTrim s.policyLimitType = defaultPolicyLimitType st.allSlices)
        ∧ ∀ s1 ∈ (applyFiltersToCache parseDate st).slices,
            ∀ s2 ∈ (applyFiltersToCache parseDate st).slices,
              strTrim s1.policyLimitType = strTrim s2.policyLimitType) := by
  have h1 : (applyFiltersToCache parseDate st).filters.policyLimitType
      = defaultPolicyLimitType st.allSlices := by
    rw [applyFilters_policyLimitType,
      if_neg (show ¬(strTrim st.filters.policyLimitType ≠ "") from fun h => h hunset)]
  refine ⟨h1, fun hne => ?_⟩
  have hdef := defaultPolicyLimitType_ne_empty hne
  obtain ⟨F, hF⟩ := applyFilters_slices_shape parseDate st
  rw [h1, if_pos hdef] at hF
  have hmem : ∀ s ∈ (applyFiltersToCache parseDate st).slices,
      strTrim s.policyLimitType = defaultPolicyLimitType st.allSlices := by
    intro s hs
    rw [hF] at hs
    have h2 := (List.mem_filter.mp hs).2
    simpa using h2
  exact ⟨hdef, hmem, fun s1 hs1 s2 hs2 => (hmem s1 hs1).trans (hmem s2 hs2).symm⟩

/-- A "Bodily Injury" slice and a "Property Damage" slice of the same book. -/
def sliceC10a : Slice := { sliceC1P1 with policyLimitType := "Bodily Injury" }

def sliceC10b : Slice :=
  { sliceC1P1 with
    PolicyID := "P2"
    policyLimitType := "Property Damage" }

def stC10 : CacheState :=
  { allSlices := [sliceC10a, sliceC10b]
    allXLabels := ["1985"]
    slices := [sliceC10a, sliceC10b]
    xLabels := ["1985"]
    quotaKeySet := []
    useYearAxis := true
    hiddenLegendCarriers := []
    hiddenLegendCarrierGroups := []
    filters :=
      { startYear := none, endYear := none, startDate := none, endDate := none
        zoomMin := none, zoomMax := none, sirMode := "occ", insuranceProgram := ""
        policyLimitType := "", annualized := false, carriers := [], carrierGroups := [] } }

theorem implicit_default_limit_type_witness :
    defaultPolicyLimitType stC10.allSlices = "Bodily Injury"
    ∧ availableLimitTypes stC10.allSlices ≠ []
    ∧ ((applyFiltersToCache (fun _ => none) stC10).filters.policyLimitType
          = defaultPolicyLimitType stC10.allSlices
        ∧ (availableLimitTypes stC10.allSlices ≠ [] →
            defaultPolicyLimitType stC10.allSlices ≠ ""
            ∧ (∀ s ∈ (applyFiltersToCache (fun _ => none) stC10).slices,
                strTrim s.policyLimitType = defaultPolicyLimitType stC10.allSlices)
            ∧ ∀ s1 ∈ (applyFiltersToCache (fun _ => none) stC10).slices,
                ∀ s2 ∈ (applyFiltersToCache (fun _ => none) stC10).slices,
                  strTrim s1.policyLimitType = strTrim s2.policyLimitType)) :=
  ⟨by decide, by decide, implicit_default_limit_type (fun _ => none) stC10 (by decide)⟩
